import Mathlib

/-!
# Verification of the go-license binary codec and license verifier

Shallow embedding of the security-relevant core of the `go-license`
repository: the binary license codec (`pkg/licformat`), the verification
checks (`pkg/licverify`), and the load/split logic of `LoadLicense`.

Modelling conventions:
* Go byte slices and strings are `List Nat` (each entry one byte; writers
  only emit values `< 256`, readers are agnostic).
* Go `time.Time` license timestamps are modelled by their Unix-seconds
  value, an `Int` (Go's `Time.Unix()` returns an `int64`; the codec only
  ever touches that value).
* A Go `*bytes.Reader` is modelled by the list of not-yet-consumed bytes;
  advancing the read position is dropping a prefix.
* RSA signature verification (`rsa.VerifyPKCS1v15` over a SHA-256 digest)
  and JSON marshalling (`encoding/json`) are external library calls; they
  enter the model as function parameters (`rsaVerify`, `jsonMarshal`,
  `jsonUnmarshal`) wherever the repository calls them.
-/

/-! ## licformat: data model (`pkg/licverify/hardware.go`, licformat part) -/

/-- `licformat.HardwareBindingData`: hardware identifiers of a license. -/
structure HardwareBindingData where
  MACAddresses : List (List Nat)
  DiskIDs : List (List Nat)
  HostNames : List (List Nat)
  CustomIDs : List (List Nat)
deriving DecidableEq

/-- `licformat.LicenseData`: the format-agnostic license payload.
Timestamps are the Unix-seconds values (`int64` in Go). -/
structure LicenseData where
  ID : List Nat
  CustomerID : List Nat
  ProductID : List Nat
  SerialNumber : List Nat
  IssueDate : Int
  ExpiryDate : Int
  Features : List (List Nat)
  HardwareIDs : HardwareBindingData
deriving DecidableEq

/-- `licformat.currentVersion`: the format version tag (1). -/
def currentVersion : Nat := 1

/-! ## Little-endian integers (`encoding/binary`, little-endian) -/

/-- Little-endian byte encoding of `n`, `w` bytes wide.  Emitting only `w`
bytes truncates `n` modulo `256^w`, exactly like Go's `uint16(...)` /
`uint32(...)` conversions followed by a little-endian put. -/
def toLE : Nat → Nat → List Nat
  | 0, _ => []
  | w + 1, n => n % 256 :: toLE w (n / 256)

/-- Little-endian value of a byte list. -/
def fromLE : List Nat → Nat
  | [] => 0
  | b :: bs => b + 256 * fromLE bs

/-- Encoding of an `int64` value as 8 little-endian two's-complement
bytes, as `binary.Write(&buf, binary.LittleEndian, i)` produces. -/
def int64ToLE (i : Int) : List Nat := toLE 8 (i % 2 ^ 64).toNat

/-- Two's-complement reading of a 64-bit unsigned value, as
`binary.Read` into an `int64` performs. -/
def int64OfNat (n : Nat) : Int := if n < 2 ^ 63 then (n : Int) else (n : Int) - 2 ^ 64

/-! ## licformat: encoder (`EncodeLicenseData` and helpers)

Go's `EncodeLicenseData` returns `([]byte, error)`, but its only error
path is `binary.Write` into a `bytes.Buffer` with a fixed-size value,
which cannot fail; the encoder is total and is modelled as such. -/

/-- `licformat.writeString`: a 16-bit little-endian length prefix
(`uint16(len(data))` — truncated modulo 2^16, not checked) followed by
all of the string's bytes. -/
def writeString (s : List Nat) : List Nat := toLE 2 s.length ++ s

/-- `licformat.writeStringSlice`: a 16-bit little-endian count
(`uint16(len(slice))`, truncated modulo 2^16) followed by each entry in
`writeString` form. -/
def writeStringSlice (l : List (List Nat)) : List Nat :=
  toLE 2 l.length ++ (l.map writeString).flatten

/-- The body `EncodeLicenseData` writes after its 5-byte header: the four
strings, the two timestamps, and the five string slices, in order. -/
def encodeBody (d : LicenseData) : List Nat :=
  writeString d.ID ++ (writeString d.CustomerID ++ (writeString d.ProductID ++
  (writeString d.SerialNumber ++ (int64ToLE d.IssueDate ++ (int64ToLE d.ExpiryDate ++
  (writeStringSlice d.Features ++ (writeStringSlice d.HardwareIDs.MACAddresses ++
  (writeStringSlice d.HardwareIDs.DiskIDs ++ (writeStringSlice d.HardwareIDs.HostNames ++
  writeStringSlice d.HardwareIDs.CustomIDs)))))))))

/-- `licformat.EncodeLicenseData`: version byte, 32-bit little-endian
body length (`uint32(len(bytes)-headerSize)`, patched in after the body
is written), then the body fields in order. -/
def EncodeLicenseData (d : LicenseData) : List Nat :=
  currentVersion :: toLE 4 (encodeBody d).length ++ encodeBody d

/-! ## licformat: decoder (`DecodeLicenseData` and helpers)

The reader state is the list of remaining bytes.  `binary.Read` (used for
the header, the `uint16` prefixes and the `int64` timestamps) reads via
`io.ReadFull` and fails whenever fewer bytes remain than requested.
`readString`'s *data* read, however, is a bare `buf.Read(data)` whose
error is checked but whose byte count is not: `bytes.Reader.Read` returns
`io.EOF` only when the reader is already at the end (even for a
zero-length destination), and otherwise reports however many bytes it
could copy — without error — leaving the rest of `make([]byte, length)`
as zero bytes.  The model reproduces these semantics exactly. -/

/-- `binary.Read` of a `uint16` (little-endian): fails unless two bytes
remain. -/
def readU16 : List Nat → Option (Nat × List Nat)
  | b0 :: b1 :: rest => some (b0 + 256 * b1, rest)
  | _ => none

/-- `binary.Read` of an `int64` (little-endian): fails unless eight bytes
remain. -/
def readInt64 (s : List Nat) : Option (Int × List Nat) :=
  if 8 ≤ s.length then some (int64OfNat (fromLE (s.take 8)), s.drop 8) else none

/-- `licformat.readString`: reads the `uint16` length, then performs
`buf.Read(make([]byte, length))`.  At end of buffer `bytes.Reader.Read`
returns `io.EOF` (an error, even when `length = 0`); otherwise it
under-reads silently, so a short read yields the remaining bytes padded
with zeros, with the reader left at the end. -/
def readString (s : List Nat) : Option (List Nat × List Nat) :=
  match readU16 s with
  | none => none
  | some (len, rest) =>
    if rest.isEmpty then none
    else some (rest.take len ++ List.replicate (len - rest.length) 0, rest.drop len)

/-- The element-reading loop of `licformat.readStringSlice`. -/
def readStrings : Nat → List Nat → Option (List (List Nat) × List Nat)
  | 0, s => some ([], s)
  | n + 1, s =>
    (readString s).bind fun (x, r) =>
    (readStrings n r).bind fun (xs, r2) =>
    some (x :: xs, r2)

/-- `licformat.readStringSlice`: `uint16` count, then that many
`readString`s. -/
def readStringSlice (s : List Nat) : Option (List (List Nat) × List Nat) :=
  match readU16 s with
  | none => none
  | some (count, rest) => readStrings count rest

/-- The field-reading chain of `DecodeLicenseData` after the header, with
the reader's final state kept so theorems can speak about consumed bytes
(Go holds the same position in its `bytes.Reader` and merely never looks
at it again). -/
def decodeBodyAux (s0 : List Nat) : Option (LicenseData × List Nat) :=
  (readString s0).bind fun (idF, s1) =>
  (readString s1).bind fun (customerID, s2) =>
  (readString s2).bind fun (productID, s3) =>
  (readString s3).bind fun (serialNumber, s4) =>
  (readInt64 s4).bind fun (issueDate, s5) =>
  (readInt64 s5).bind fun (expiryDate, s6) =>
  (readStringSlice s6).bind fun (features, s7) =>
  (readStringSlice s7).bind fun (macs, s8) =>
  (readStringSlice s8).bind fun (disks, s9) =>
  (readStringSlice s9).bind fun (hosts, s10) =>
  (readStringSlice s10).bind fun (customs, s11) =>
  some (⟨idF, customerID, productID, serialNumber, issueDate, expiryDate, features,
         ⟨macs, disks, hosts, customs⟩⟩, s11)

/-- `licformat.DecodeLicenseData`: rejects inputs shorter than the 5-byte
header, reads the header (version byte and a 32-bit length that is never
compared against anything), rejects versions other than
`currentVersion`, then reads the body fields in order.  Trailing bytes
are ignored. -/
def DecodeLicenseData (data : List Nat) : Option LicenseData :=
  match data with
  | v :: _ :: _ :: _ :: _ :: rest =>
    if v = currentVersion then (decodeBodyAux rest).map Prod.fst else none
  | _ => none

/-! ## licverify: the license value and the verification checks
(`pkg/licgen/crypto.go`, licverify part) -/

/-- `licverify.License`: the decoded license together with the detached
signature bytes. -/
structure License where
  ID : List Nat
  CustomerID : List Nat
  ProductID : List Nat
  SerialNumber : List Nat
  IssueDate : Int
  ExpiryDate : Int
  Features : List (List Nat)
  HardwareIDs : HardwareBindingData
  Signature : List Nat
deriving DecidableEq

/-- `licverify.HardwareInfo`: the identifiers detected on the current
machine (`CPUInfo` is collected but never consulted by verification and
is omitted). -/
structure HardwareInfo where
  MACAddresses : List (List Nat)
  DiskIDs : List (List Nat)
  Hostname : List Nat
deriving DecidableEq

/-- The distinct error kinds the verification functions return (each Go
check returns a distinct `errors.New` / `fmt.Errorf` message). -/
inductive VerifyError where
  | invalidSignature
  | macMismatch
  | diskMismatch
  | hostnameMismatch
  | expired
deriving DecidableEq

/-- `licverify.contains`: membership of a string in a slice. -/
def contains (slice : List (List Nat)) (item : List Nat) : Bool :=
  slice.any fun s => s = item

/-- `licverify.containsAny`: some string of `slice1` occurs in `slice2`. -/
def containsAny (slice1 slice2 : List (List Nat)) : Bool :=
  slice1.any fun s1 => slice2.any fun s2 => s1 = s2

/-- Field-by-field copy of a `licverify.License` into a
`licformat.LicenseData`, as `VerifySignature` (via `licformat.License`
and `ToLicenseData`) performs before re-encoding. -/
def toLicenseData (license : License) : LicenseData :=
  ⟨license.ID, license.CustomerID, license.ProductID, license.SerialNumber,
   license.IssueDate, license.ExpiryDate, license.Features, license.HardwareIDs⟩

/-- Field-by-field copy of a decoded `licformat.LicenseData` into a
`licverify.License` (signature not yet attached), as `LoadLicense`
performs. -/
def fromLicenseData (d : LicenseData) : License :=
  ⟨d.ID, d.CustomerID, d.ProductID, d.SerialNumber,
   d.IssueDate, d.ExpiryDate, d.Features, d.HardwareIDs, []⟩

/-- `licverify.Verifier.VerifyHardwareBinding` with the detected
`HardwareInfo` passed in (Go obtains it from `GetHardwareInfo()`): each
populated dimension of the license's binding must match — license MAC
list and disk list each by non-empty intersection with the detected
lists, hostname by membership of the detected hostname in the license's
list.  `CustomIDs` is never checked. -/
def VerifyHardwareBinding (hwInfo : HardwareInfo) (license : License) :
    Except VerifyError Unit :=
  if 0 < license.HardwareIDs.MACAddresses.length ∧
      containsAny hwInfo.MACAddresses license.HardwareIDs.MACAddresses = false then
    Except.error VerifyError.macMismatch
  else if 0 < license.HardwareIDs.DiskIDs.length ∧
      containsAny hwInfo.DiskIDs license.HardwareIDs.DiskIDs = false then
    Except.error VerifyError.diskMismatch
  else if 0 < license.HardwareIDs.HostNames.length ∧
      contains license.HardwareIDs.HostNames hwInfo.Hostname = false then
    Except.error VerifyError.hostnameMismatch
  else
    Except.ok ()

/-- `licverify.Verifier.VerifyExpiry` with the current time passed in as
its Unix value: `time.Now().After(expiry)` — strictly later — fails. -/
def VerifyExpiry (now : Int) (license : License) : Except VerifyError Unit :=
  if license.ExpiryDate < now then Except.error VerifyError.expired else Except.ok ()

/-- `licverify.Verifier.VerifySignature`.  `rsaVerify data sig` stands for
`rsa.VerifyPKCS1v15(pub, crypto.SHA256, sha256.Sum256(data), sig) == nil`
and `jsonMarshal` for `json.Marshal` of the license copy whose
`Signature` field was cleared — both external library calls.  The check
re-encodes the in-memory license with `licformat.EncodeLicense` and
verifies against those bytes; on failure it retries against the JSON
marshalling (legacy format), and only if both fail reports an invalid
signature.  (The Go error paths for encoding/marshalling failure are
dead: both operations are total on in-memory values.) -/
def VerifySignature (rsaVerify : List Nat → List Nat → Bool)
    (jsonMarshal : License → List Nat) (license : License) :
    Except VerifyError Unit :=
  let licenseData := EncodeLicenseData (toLicenseData license)
  if rsaVerify licenseData license.Signature then Except.ok ()
  else if rsaVerify (jsonMarshal { license with Signature := [] }) license.Signature then
    Except.ok ()
  else Except.error VerifyError.invalidSignature

/-- `licverify.License.IsValid`: runs `VerifySignature`, then
`VerifyHardwareBinding`, then `VerifyExpiry`, stopping at the first
failure. -/
def IsValid (rsaVerify : List Nat → List Nat → Bool)
    (jsonMarshal : License → List Nat) (hwInfo : HardwareInfo) (now : Int)
    (license : License) : Except VerifyError Unit :=
  match VerifySignature rsaVerify jsonMarshal license with
  | Except.error e => Except.error e
  | Except.ok () =>
    match VerifyHardwareBinding hwInfo license with
    | Except.error e => Except.error e
    | Except.ok () => VerifyExpiry now license

/-- The payload/signature split of `licverify.Verifier.LoadLicense`: a
file shorter than 256 bytes is rejected, otherwise the final 256 bytes
are taken as the signature — the byte count is the fixed constant 256
("for RSA-2048"), whatever key the verifier actually holds. -/
def splitLicenseFile (data : List Nat) : Option (List Nat × List Nat) :=
  if data.length < 256 then none
  else some (data.take (data.length - 256), data.drop (data.length - 256))

/-- `licverify.Verifier.LoadLicense` after the file read: split off the
signature, try the binary decoder, fall back to legacy JSON
(`jsonUnmarshal` stands for `json.Unmarshal` into a `License`, an
external library call), and attach the signature to whichever branch
succeeded. -/
def LoadLicense (jsonUnmarshal : List Nat → Option License) (data : List Nat) :
    Option License :=
  match splitLicenseFile data with
  | none => none
  | some (licenseData, signature) =>
    match DecodeLicenseData licenseData with
    | some d => some { fromLicenseData d with Signature := signature }
    | none =>
      match jsonUnmarshal licenseData with
      | some license => some { license with Signature := signature }
      | none => none

/-- Decidable equality of verification outcomes, for evaluating the
checks on concrete licenses. -/
instance : DecidableEq (Except VerifyError Unit) := fun a b =>
  match a, b with
  | Except.ok (), Except.ok () => isTrue rfl
  | Except.error x, Except.error y =>
    if h : x = y then isTrue (by rw [h]) else isFalse (fun c => h (Except.error.inj c))
  | Except.ok _, Except.error _ => isFalse (fun c => Except.noConfusion c)
  | Except.error _, Except.ok _ => isFalse (fun c => Except.noConfusion c)

/-! ## Field-width bounds

The spec's encode contract restricts the four string fields to at most
65535 bytes and the five lists to at most 65535 entries.  `EncodeFits`
additionally bounds each list *element* at 65535 bytes (the encoder
truncates element length prefixes through the same `uint16` cast) and
records that the timestamps carry `int64` values, which Go's
`Time.Unix()` guarantees by type. -/

/-- A string field fits its 16-bit length prefix. -/
def strFits (s : List Nat) : Prop := s.length ≤ 65535

/-- A string list fits its 16-bit count prefix and each element fits its
16-bit length prefix. -/
def sliceFits (l : List (List Nat)) : Prop :=
  l.length ≤ 65535 ∧ ∀ s ∈ l, s.length ≤ 65535

/-- The value range of Go's `int64`. -/
def int64Fits (i : Int) : Prop := -(2 ^ 63) ≤ i ∧ i < 2 ^ 63

/-- All width constraints of a payload together. -/
def EncodeFits (d : LicenseData) : Prop :=
  strFits d.ID ∧ strFits d.CustomerID ∧ strFits d.ProductID ∧ strFits d.SerialNumber ∧
  int64Fits d.IssueDate ∧ int64Fits d.ExpiryDate ∧
  sliceFits d.Features ∧ sliceFits d.HardwareIDs.MACAddresses ∧
  sliceFits d.HardwareIDs.DiskIDs ∧ sliceFits d.HardwareIDs.HostNames ∧
  sliceFits d.HardwareIDs.CustomIDs

instance (d : LicenseData) : Decidable (EncodeFits d) := by
  unfold EncodeFits strFits sliceFits int64Fits
  infer_instance

/-! ## Arithmetic and reader/writer lemmas -/

theorem toLE_length (w n : Nat) : (toLE w n).length = w := by
  induction w generalizing n with
  | zero => rfl
  | succ w ih => simp [toLE, ih]

theorem fromLE_toLE (w n : Nat) : fromLE (toLE w n) = n % 256 ^ w := by
  induction w generalizing n with
  | zero => simp [toLE, fromLE, Nat.mod_one]
  | succ w ih =>
    simp only [toLE, fromLE, ih]
    rw [pow_succ', Nat.mod_mul]

theorem toLE_two (n : Nat) : toLE 2 n = [n % 256, n / 256 % 256] := rfl

theorem toLE_four (n : Nat) :
    toLE 4 n = [n % 256, n / 256 % 256, n / 256 / 256 % 256, n / 256 / 256 / 256 % 256] := rfl

theorem writeString_ne_nil (s : List Nat) : writeString s ≠ [] := by
  simp [writeString, toLE_two]

theorem writeStringSlice_ne_nil (l : List (List Nat)) : writeStringSlice l ≠ [] := by
  simp [writeStringSlice, toLE_two]

theorem readU16_toLE (n : Nat) (rest : List Nat) :
    readU16 (toLE 2 n ++ rest) = some (n % 65536, rest) := by
  rw [toLE_two]
  show some (n % 256 + 256 * (n / 256 % 256), rest) = some (n % 65536, rest)
  rw [show (65536 : Nat) = 256 * 256 from rfl, Nat.mod_mul]

theorem readString_writeString (s rest : List Nat) (hlen : s.length ≤ 65535)
    (hne : s ++ rest ≠ []) :
    readString (writeString s ++ rest) = some (s, rest) := by
  rw [writeString, List.append_assoc, readString, readU16_toLE,
    Nat.mod_eq_of_lt (by omega : s.length < 65536)]
  show (if (s ++ rest).isEmpty = true then none
    else some ((s ++ rest).take s.length ++ List.replicate (s.length - (s ++ rest).length) 0,
      (s ++ rest).drop s.length)) = some (s, rest)
  rw [if_neg (by simp [List.isEmpty_iff, hne])]
  rw [show s.length - (s ++ rest).length = 0 by simp, List.take_left, List.drop_left]
  simp

theorem readInt64_int64ToLE (i : Int) (rest : List Nat)
    (h1 : -(2 ^ 63) ≤ i) (h2 : i < 2 ^ 63) :
    readInt64 (int64ToLE i ++ rest) = some (i, rest) := by
  have hlen : (int64ToLE i).length = 8 := toLE_length 8 _
  rw [readInt64, if_pos (by simp [hlen]),
    show (int64ToLE i ++ rest).take 8 = int64ToLE i by rw [← hlen]; exact List.take_left ..,
    show (int64ToLE i ++ rest).drop 8 = rest by rw [← hlen]; exact List.drop_left ..]
  rw [int64ToLE, fromLE_toLE, show (256 : Nat) ^ 8 = 2 ^ 64 by norm_num]
  have hmod : (i % 2 ^ 64).toNat % 2 ^ 64 = (i % 2 ^ 64).toNat :=
    Nat.mod_eq_of_lt (by omega)
  rw [hmod, int64OfNat]
  have hval : (if (i % 2 ^ 64).toNat < 2 ^ 63 then ((i % 2 ^ 64).toNat : Int)
      else ((i % 2 ^ 64).toNat : Int) - 2 ^ 64) = i := by
    split <;> omega
  rw [hval]

theorem append_ne_nil_left {α : Type} (a b : List α) (h : a ≠ []) : a ++ b ≠ [] := by
  intro e
  exact h (List.append_eq_nil.mp e).1

theorem append_ne_nil_right {α : Type} (a b : List α) (h : b ≠ []) : a ++ b ≠ [] := by
  intro e
  exact h (List.append_eq_nil.mp e).2

theorem readStrings_flatten (l : List (List Nat)) (rest : List Nat)
    (hlen : ∀ s ∈ l, s.length ≤ 65535)
    (hne : rest ≠ [] ∨ l.getLast? ≠ some []) :
    readStrings l.length ((l.map writeString).flatten ++ rest) = some (l, rest) := by
  induction l with
  | nil => simp [readStrings]
  | cons s t ih =>
    have hs : s.length ≤ 65535 := hlen s (by simp)
    have hcons : s ++ ((List.map writeString t).flatten ++ rest) ≠ [] := by
      cases t with
      | nil =>
        rcases hne with h | h
        · exact append_ne_nil_right _ _ (by simpa using h)
        · have hs0 : s ≠ [] := by
            intro e
            exact h (by simp [e])
          exact append_ne_nil_left _ _ hs0
      | cons u t' =>
        refine append_ne_nil_right _ _ (append_ne_nil_left _ _ ?_)
        exact append_ne_nil_left _ _ (writeString_ne_nil u)
    have hne' : rest ≠ [] ∨ t.getLast? ≠ some [] := by
      rcases hne with h | h
      · exact Or.inl h
      · cases t with
        | nil => exact Or.inr (by simp)
        | cons u t' => exact Or.inr (by simpa using h)
    have ihh := ih (fun x hx => hlen x (List.mem_cons_of_mem s hx)) hne'
    simp only [List.map_cons, List.flatten_cons, List.length_cons, List.append_assoc]
    rw [readStrings, readString_writeString s _ hs hcons, Option.some_bind]
    show ((readStrings t.length ((List.map writeString t).flatten ++ rest)).bind
        fun q => some (s :: q.1, q.2)) = some (s :: t, rest)
    rw [ihh, Option.some_bind]

theorem readStringSlice_writeStringSlice (l : List (List Nat)) (rest : List Nat)
    (hcount : l.length ≤ 65535) (hlen : ∀ s ∈ l, s.length ≤ 65535)
    (hne : rest ≠ [] ∨ l.getLast? ≠ some []) :
    readStringSlice (writeStringSlice l ++ rest) = some (l, rest) := by
  rw [writeStringSlice, List.append_assoc, readStringSlice, readU16_toLE,
    Nat.mod_eq_of_lt (by omega : l.length < 65536)]
  show readStrings l.length ((l.map writeString).flatten ++ rest) = some (l, rest)
  exact readStrings_flatten l rest hlen hne

theorem readStringSlice_writeStringSlice_last (l : List (List Nat))
    (hcount : l.length ≤ 65535) (hlen : ∀ s ∈ l, s.length ≤ 65535)
    (hlast : l.getLast? ≠ some []) :
    readStringSlice (writeStringSlice l) = some (l, []) := by
  rw [← List.append_nil (writeStringSlice l)]
  exact readStringSlice_writeStringSlice l [] hcount hlen (Or.inr hlast)

theorem int64ToLE_ne_nil (i : Int) : int64ToLE i ≠ [] := by
  intro e
  have := toLE_length 8 (i % 2 ^ 64).toNat
  rw [int64ToLE] at e
  rw [e] at this
  simp at this

theorem decodeBodyAux_encodeBody (d : LicenseData) (h : EncodeFits d)
    (hlast : d.HardwareIDs.CustomIDs.getLast? ≠ some []) :
    decodeBodyAux (encodeBody d) = some (d, []) := by
  obtain ⟨idF, cid, pid, sn, idate, edate, feats, ⟨macs, disks, hosts, customs⟩⟩ := d
  simp only [EncodeFits, strFits, sliceFits, int64Fits] at h
  obtain ⟨h1, h2, h3, h4, h5, h6, h7, h8, h9, h10, h11⟩ := h
  have hneE1 : idF ++ (writeString cid ++ (writeString pid ++ (writeString sn ++ (int64ToLE idate ++ (int64ToLE edate ++ (writeStringSlice feats ++ (writeStringSlice macs ++ (writeStringSlice disks ++ (writeStringSlice hosts ++ (writeStringSlice customs)))))))))) ≠ [] :=
    append_ne_nil_right _ _ (append_ne_nil_left _ _ (writeString_ne_nil cid))
  have E1 : readString (writeString idF ++ (writeString cid ++ (writeString pid ++ (writeString sn ++ (int64ToLE idate ++ (int64ToLE edate ++ (writeStringSlice feats ++ (writeStringSlice macs ++ (writeStringSlice disks ++ (writeStringSlice hosts ++ (writeStringSlice customs))))))))))) = some (idF, writeString cid ++ (writeString pid ++ (writeString sn ++ (int64ToLE idate ++ (int64ToLE edate ++ (writeStringSlice feats ++ (writeStringSlice macs ++ (writeStringSlice disks ++ (writeStringSlice hosts ++ (writeStringSlice customs)))))))))) :=
    readString_writeString idF (writeString cid ++ (writeString pid ++ (writeString sn ++ (int64ToLE idate ++ (int64ToLE edate ++ (writeStringSlice feats ++ (writeStringSlice macs ++ (writeStringSlice disks ++ (writeStringSlice hosts ++ (writeStringSlice customs)))))))))) h1 hneE1
  have hneE2 : cid ++ (writeString pid ++ (writeString sn ++ (int64ToLE idate ++ (int64ToLE edate ++ (writeStringSlice feats ++ (writeStringSlice macs ++ (writeStringSlice disks ++ (writeStringSlice hosts ++ (writeStringSlice customs))))))))) ≠ [] :=
    append_ne_nil_right _ _ (append_ne_nil_left _ _ (writeString_ne_nil pid))
  have E2 : readString (writeString cid ++ (writeString pid ++ (writeString sn ++ (int64ToLE idate ++ (int64ToLE edate ++ (writeStringSlice feats ++ (writeStringSlice macs ++ (writeStringSlice disks ++ (writeStringSlice hosts ++ (writeStringSlice customs)))))))))) = some (cid, writeString pid ++ (writeString sn ++ (int64ToLE idate ++ (int64ToLE edate ++ (writeStringSlice feats ++ (writeStringSlice macs ++ (writeStringSlice disks ++ (writeStringSlice hosts ++ (writeStringSlice customs))))))))) :=
    readString_writeString cid (writeString pid ++ (writeString sn ++ (int64ToLE idate ++ (int64ToLE edate ++ (writeStringSlice feats ++ (writeStringSlice macs ++ (writeStringSlice disks ++ (writeStringSlice hosts ++ (writeStringSlice customs))))))))) h2 hneE2
  have hneE3 : pid ++ (writeString sn ++ (int64ToLE idate ++ (int64ToLE edate ++ (writeStringSlice feats ++ (writeStringSlice macs ++ (writeStringSlice disks ++ (writeStringSlice hosts ++ (writeStringSlice customs)))))))) ≠ [] :=
    append_ne_nil_right _ _ (append_ne_nil_left _ _ (writeString_ne_nil sn))
  have E3 : readString (writeString pid ++ (writeString sn ++ (int64ToLE idate ++ (int64ToLE edate ++ (writeStringSlice feats ++ (writeStringSlice macs ++ (writeStringSlice disks ++ (writeStringSlice hosts ++ (writeStringSlice customs))))))))) = some (pid, writeString sn ++ (int64ToLE idate ++ (int64ToLE edate ++ (writeStringSlice feats ++ (writeStringSlice macs ++ (writeStringSlice disks ++ (writeStringSlice hosts ++ (writeStringSlice customs)))))))) :=
    readString_writeString pid (writeString sn ++ (int64ToLE idate ++ (int64ToLE edate ++ (writeStringSlice feats ++ (writeStringSlice macs ++ (writeStringSlice disks ++ (writeStringSlice hosts ++ (writeStringSlice customs)))))))) h3 hneE3
  have hneE4 : sn ++ (int64ToLE idate ++ (int64ToLE edate ++ (writeStringSlice feats ++ (writeStringSlice macs ++ (writeStringSlice disks ++ (writeStringSlice hosts ++ (writeStringSlice customs))))))) ≠ [] :=
    append_ne_nil_right _ _ (append_ne_nil_left _ _ (int64ToLE_ne_nil idate))
  have E4 : readString (writeString sn ++ (int64ToLE idate ++ (int64ToLE edate ++ (writeStringSlice feats ++ (writeStringSlice macs ++ (writeStringSlice disks ++ (writeStringSlice hosts ++ (writeStringSlice customs)))))))) = some (sn, int64ToLE idate ++ (int64ToLE edate ++ (writeStringSlice feats ++ (writeStringSlice macs ++ (writeStringSlice disks ++ (writeStringSlice hosts ++ (writeStringSlice customs))))))) :=
    readString_writeString sn (int64ToLE idate ++ (int64ToLE edate ++ (writeStringSlice feats ++ (writeStringSlice macs ++ (writeStringSlice disks ++ (writeStringSlice hosts ++ (writeStringSlice customs))))))) h4 hneE4
  have E5 : readInt64 (int64ToLE idate ++ (int64ToLE edate ++ (writeStringSlice feats ++ (writeStringSlice macs ++ (writeStringSlice disks ++ (writeStringSlice hosts ++ (writeStringSlice customs))))))) = some (idate, int64ToLE edate ++ (writeStringSlice feats ++ (writeStringSlice macs ++ (writeStringSlice disks ++ (writeStringSlice hosts ++ (writeStringSlice customs)))))) :=
    readInt64_int64ToLE idate (int64ToLE edate ++ (writeStringSlice feats ++ (writeStringSlice macs ++ (writeStringSlice disks ++ (writeStringSlice hosts ++ (writeStringSlice customs)))))) h5.1 h5.2
  have E6 : readInt64 (int64ToLE edate ++ (writeStringSlice feats ++ (writeStringSlice macs ++ (writeStringSlice disks ++ (writeStringSlice hosts ++ (writeStringSlice customs)))))) = some (edate, writeStringSlice feats ++ (writeStringSlice macs ++ (writeStringSlice disks ++ (writeStringSlice hosts ++ (writeStringSlice customs))))) :=
    readInt64_int64ToLE edate (writeStringSlice feats ++ (writeStringSlice macs ++ (writeStringSlice disks ++ (writeStringSlice hosts ++ (writeStringSlice customs))))) h6.1 h6.2
  have E7 : readStringSlice (writeStringSlice feats ++ (writeStringSlice macs ++ (writeStringSlice disks ++ (writeStringSlice hosts ++ (writeStringSlice customs))))) = some (feats, writeStringSlice macs ++ (writeStringSlice disks ++ (writeStringSlice hosts ++ (writeStringSlice customs)))) :=
    readStringSlice_writeStringSlice feats (writeStringSlice macs ++ (writeStringSlice disks ++ (writeStringSlice hosts ++ (writeStringSlice customs)))) h7.1 h7.2
      (Or.inl (append_ne_nil_left _ _ (writeStringSlice_ne_nil macs)))
  have E8 : readStringSlice (writeStringSlice macs ++ (writeStringSlice disks ++ (writeStringSlice hosts ++ (writeStringSlice customs)))) = some (macs, writeStringSlice disks ++ (writeStringSlice hosts ++ (writeStringSlice customs))) :=
    readStringSlice_writeStringSlice macs (writeStringSlice disks ++ (writeStringSlice hosts ++ (writeStringSlice customs))) h8.1 h8.2
      (Or.inl (append_ne_nil_left _ _ (writeStringSlice_ne_nil disks)))
  have E9 : readStringSlice (writeStringSlice disks ++ (writeStringSlice hosts ++ (writeStringSlice customs))) = some (disks, writeStringSlice hosts ++ (writeStringSlice customs)) :=
    readStringSlice_writeStringSlice disks (writeStringSlice hosts ++ (writeStringSlice customs)) h9.1 h9.2
      (Or.inl (append_ne_nil_left _ _ (writeStringSlice_ne_nil hosts)))
  have E10 : readStringSlice (writeStringSlice hosts ++ (writeStringSlice customs)) = some (hosts, writeStringSlice customs) :=
    readStringSlice_writeStringSlice hosts (writeStringSlice customs) h10.1 h10.2
      (Or.inl (writeStringSlice_ne_nil customs))
  have E11 : readStringSlice (writeStringSlice customs) = some (customs, []) :=
    readStringSlice_writeStringSlice_last customs h11.1 h11.2 hlast
  show decodeBodyAux (writeString idF ++ (writeString cid ++ (writeString pid ++ (writeString sn ++ (int64ToLE idate ++ (int64ToLE edate ++ (writeStringSlice feats ++ (writeStringSlice macs ++ (writeStringSlice disks ++ (writeStringSlice hosts ++ (writeStringSlice customs))))))))))) =
    some (⟨idF, cid, pid, sn, idate, edate, feats, ⟨macs, disks, hosts, customs⟩⟩, [])
  simp only [decodeBodyAux, E1, E2, E3, E4, E5, E6, E7, E8, E9, E10, E11, Option.some_bind]

theorem DecodeLicenseData_EncodeLicenseData (d : LicenseData) (h : EncodeFits d)
    (hlast : d.HardwareIDs.CustomIDs.getLast? ≠ some []) :
    DecodeLicenseData (EncodeLicenseData d) = some d := by
  rw [EncodeLicenseData, toLE_four]
  simp only [List.cons_append, List.nil_append]
  show (if currentVersion = currentVersion
    then (decodeBodyAux (encodeBody d)).map Prod.fst else none) = some d
  rw [if_pos rfl, decodeBodyAux_encodeBody d h hlast]
  rfl

theorem DecodeLicenseData_short (s : List Nat) (h : s.length < 5) :
    DecodeLicenseData s = none := by
  rcases s with _ | ⟨a, _ | ⟨b, _ | ⟨c, _ | ⟨e, _ | ⟨f, r⟩⟩⟩⟩⟩
  · rfl
  · rfl
  · rfl
  · rfl
  · rfl
  · simp at h
    omega

/-! ## Claim theorems -/

/-- C1, counterexample.  The payload whose only content is a customIDs
list ending in the empty string satisfies every width bound of the
claim, yet decoding its encoding fails: the final zero-length
`buf.Read` happens with the reader at end-of-buffer, where
`bytes.Reader.Read` returns `io.EOF` and `readString` reports an
error. -/
theorem roundtrip_fails_on_trailing_empty_customID :
    EncodeFits ⟨[], [], [], [], 0, 0, [], ⟨[], [], [], [[]]⟩⟩ ∧
    DecodeLicenseData (EncodeLicenseData ⟨[], [], [], [], 0, 0, [], ⟨[], [], [], [[]]⟩⟩) =
      none := by
  constructor
  · decide
  · decide

/-- C1 (amended): for every payload whose four string fields are at most
65535 bytes, whose five lists have at most 65535 entries of at most
65535 bytes each, and whose customIDs list does not end with the empty
string, decoding the encoding yields the original payload (timestamps
are Unix-seconds `Int` values throughout, so comparison is at second
resolution by construction). -/
theorem roundtrip_within_bounds (d : LicenseData) (h : EncodeFits d)
    (hlast : d.HardwareIDs.CustomIDs.getLast? ≠ some []) :
    DecodeLicenseData (EncodeLicenseData d) = some d :=
  DecodeLicenseData_EncodeLicenseData d h hlast

/-- Witness for the round-trip theorem at a concrete payload. -/
theorem roundtrip_within_bounds_witness :
    DecodeLicenseData (EncodeLicenseData
      ⟨[76], [67], [80], [83], 100, 200, [[70]], ⟨[[77]], [], [[72]], [[97]]⟩⟩) =
      some ⟨[76], [67], [80], [83], 100, 200, [[70]], ⟨[[77]], [], [[72]], [[97]]⟩⟩ :=
  roundtrip_within_bounds
    ⟨[76], [67], [80], [83], 100, 200, [[70]], ⟨[[77]], [], [[72]], [[97]]⟩⟩
    (by decide) (by decide)

/-- C7: a license is still valid at the exact expiry instant and is
`Expired` one second past it; in general `VerifyExpiry` succeeds exactly
when the current time is at most the expiry date
(`time.Now().After(expiry)` is a strict comparison). -/
theorem verifyExpiry_boundary (license : License) (now : Int) :
    (VerifyExpiry now license = Except.ok () ↔ now ≤ license.ExpiryDate) ∧
    VerifyExpiry license.ExpiryDate license = Except.ok () ∧
    VerifyExpiry (license.ExpiryDate + 1) license = Except.error VerifyError.expired := by
  refine ⟨?_, ?_, ?_⟩
  · rcases lt_or_le license.ExpiryDate now with hlt | hle
    · rw [VerifyExpiry, if_pos hlt]
      exact ⟨fun c => Except.noConfusion c, fun h => absurd hlt (not_lt.mpr h)⟩
    · rw [VerifyExpiry, if_neg (not_lt.mpr hle)]
      exact ⟨fun _ => hle, fun _ => rfl⟩
  · rw [VerifyExpiry, if_neg (by omega)]
  · rw [VerifyExpiry, if_pos (by omega)]

/-- C9: a license whose hardware binding is empty in all four dimensions
passes the hardware check against any detected machine information. -/
theorem unbound_license_passes (hwInfo : HardwareInfo) (license : License)
    (h1 : license.HardwareIDs.MACAddresses = [])
    (h2 : license.HardwareIDs.DiskIDs = [])
    (h3 : license.HardwareIDs.HostNames = [])
    (_h4 : license.HardwareIDs.CustomIDs = []) :
    VerifyHardwareBinding hwInfo license = Except.ok () := by
  rw [VerifyHardwareBinding, if_neg (by simp [h1]), if_neg (by simp [h2]),
    if_neg (by simp [h3])]

/-- Witness for the unbound-license theorem on a concrete machine. -/
theorem unbound_license_passes_witness :
    VerifyHardwareBinding ⟨[[5]], [[6]], [7]⟩
      ⟨[], [], [], [], 0, 0, [], ⟨[], [], [], []⟩, []⟩ = Except.ok () :=
  unbound_license_passes ⟨[[5]], [[6]], [7]⟩
    ⟨[], [], [], [], 0, 0, [], ⟨[], [], [], []⟩, []⟩ rfl rfl rfl rfl

/-- C10: the decoder never compares the declared 32-bit body-length
header field against the input: two inputs of equal length that agree on
every byte except offsets 1 through 4 (equal first byte, equal bytes
from offset 5 on) decode to identical results. -/
theorem decode_ignores_declared_length (d1 d2 : List Nat)
    (hlen : d1.length = d2.length) (hhead : d1.head? = d2.head?)
    (htail : d1.drop 5 = d2.drop 5) :
    DecodeLicenseData d1 = DecodeLicenseData d2 := by
  rcases d1 with _ | ⟨a1, _ | ⟨b1, _ | ⟨c1, _ | ⟨e1, _ | ⟨f1, r1⟩⟩⟩⟩⟩ <;>
    rcases d2 with _ | ⟨a2, _ | ⟨b2, _ | ⟨c2, _ | ⟨e2, _ | ⟨f2, r2⟩⟩⟩⟩⟩ <;>
    simp_all <;> rfl

/-- Witness for the header-independence theorem: garbage in the length
field does not change the decode result. -/
theorem decode_ignores_declared_length_witness :
    DecodeLicenseData [1, 9, 9, 9, 9, 3, 7] = DecodeLicenseData [1, 0, 0, 0, 0, 3, 7] :=
  decode_ignores_declared_length [1, 9, 9, 9, 9, 3, 7] [1, 0, 0, 0, 0, 3, 7]
    (by decide) (by decide) (by decide)

/-- C8: hardware verification is a conjunction over the populated
dimensions.  When the license's MAC list and hostname list are both
non-empty, a passing check implies that some license MAC occurs among
the detected MACs AND that the detected hostname occurs in the license's
hostname list; in particular a license naming MAC `[77]` and hostname
`[72, 49]` fails on a machine with MAC `[77]` but hostname `[72, 50]`. -/
theorem hardware_and_semantics (hwInfo : HardwareInfo) (license : License)
    (hmac : license.HardwareIDs.MACAddresses ≠ [])
    (hhost : license.HardwareIDs.HostNames ≠ []) :
    (VerifyHardwareBinding hwInfo license = Except.ok () →
      containsAny hwInfo.MACAddresses license.HardwareIDs.MACAddresses = true ∧
      contains license.HardwareIDs.HostNames hwInfo.Hostname = true) ∧
    VerifyHardwareBinding ⟨[[77]], [], [72, 50]⟩
      ⟨[], [], [], [], 0, 0, [], ⟨[[77]], [], [[72, 49]], []⟩, []⟩ =
      Except.error VerifyError.hostnameMismatch := by
  constructor
  · intro hok
    rw [VerifyHardwareBinding] at hok
    split at hok
    · exact Except.noConfusion hok
    · split at hok
      · exact Except.noConfusion hok
      · split at hok
        · exact Except.noConfusion hok
        · rename_i hc1 hc2 hc3
          constructor
          · rcases Bool.eq_false_or_eq_true
              (containsAny hwInfo.MACAddresses license.HardwareIDs.MACAddresses) with hf | hf
            · exact hf
            · exact absurd ⟨List.length_pos.mpr hmac, hf⟩ hc1
          · rcases Bool.eq_false_or_eq_true
              (contains license.HardwareIDs.HostNames hwInfo.Hostname) with hf | hf
            · exact hf
            · exact absurd ⟨List.length_pos.mpr hhost, hf⟩ hc3
  · decide

/-- Witness for the hardware AND-semantics theorem: on a machine that
matches both populated dimensions the check passes, and the theorem
yields both matches. -/
theorem hardware_and_semantics_witness :
    containsAny [[77]] [[77]] = true ∧ contains [[72, 49]] [72, 49] = true :=
  (hardware_and_semantics ⟨[[77]], [], [72, 49]⟩
    ⟨[], [], [], [], 0, 0, [], ⟨[[77]], [], [[72, 49]], []⟩, []⟩
    (by decide) (by decide)).1 (by decide)

theorem verifyHardwareBinding_error_kinds (hwInfo : HardwareInfo) (license : License)
    (e : VerifyError) (h : VerifyHardwareBinding hwInfo license = Except.error e) :
    e ≠ VerifyError.expired := by
  rw [VerifyHardwareBinding] at h
  split at h
  · cases Except.error.inj h
    decide
  · split at h
    · cases Except.error.inj h
      decide
    · split at h
      · cases Except.error.inj h
        decide
      · exact Except.noConfusion h

/-- C2, counterexample.  A license whose signature verifies (the
signature oracle accepts everything here) and which is both one second
past expiry and hardware-mismatched is reported as a hardware mismatch,
not as expired: `IsValid` checks hardware binding before expiry. -/
theorem isValid_reports_hardware_not_expiry :
    VerifySignature (fun _ _ => true) (fun _ => [])
      ⟨[], [], [], [], 0, 5, [], ⟨[], [], [[72]], []⟩, []⟩ = Except.ok () ∧
    VerifyExpiry 10 ⟨[], [], [], [], 0, 5, [], ⟨[], [], [[72]], []⟩, []⟩ =
      Except.error VerifyError.expired ∧
    VerifyHardwareBinding ⟨[], [], [75]⟩
      ⟨[], [], [], [], 0, 5, [], ⟨[], [], [[72]], []⟩, []⟩ =
      Except.error VerifyError.hostnameMismatch ∧
    IsValid (fun _ _ => true) (fun _ => []) ⟨[], [], [75]⟩ 10
      ⟨[], [], [], [], 0, 5, [], ⟨[], [], [[72]], []⟩, []⟩ =
      Except.error VerifyError.hostnameMismatch := by
  refine ⟨by decide, by decide, by decide, by decide⟩

/-- C2 (amended): `IsValid` runs the checks in the order signature, then
hardware binding, then expiry, and succeeds exactly when all three pass.
A license whose signature fails never reaches the other checks (the
verdict is the signature error, whatever the other checks would say),
and a license whose signature verifies but which is both past expiry and
hardware-mismatched is reported with the hardware failure, never the
expiry failure. -/
theorem isValid_order (rv : List Nat → List Nat → Bool) (jm : License → List Nat)
    (hwInfo : HardwareInfo) (now : Int) (license : License) :
    (∀ e, VerifySignature rv jm license = Except.error e →
      IsValid rv jm hwInfo now license = Except.error e) ∧
    (∀ e, VerifySignature rv jm license = Except.ok () →
      VerifyHardwareBinding hwInfo license = Except.error e →
      IsValid rv jm hwInfo now license = Except.error e ∧ e ≠ VerifyError.expired) ∧
    (IsValid rv jm hwInfo now license = Except.ok () ↔
      VerifySignature rv jm license = Except.ok () ∧
      VerifyHardwareBinding hwInfo license = Except.ok () ∧
      VerifyExpiry now license = Except.ok ()) := by
  refine ⟨?_, ?_, ?_⟩
  · intro e hsig
    rw [IsValid, hsig]
  · intro e hsig hhw
    refine ⟨?_, verifyHardwareBinding_error_kinds hwInfo license e hhw⟩
    rw [IsValid, hsig, hhw]
  · constructor
    · intro hok
      rw [IsValid] at hok
      cases hs : VerifySignature rv jm license with
      | error e =>
        rw [hs] at hok
        exact Except.noConfusion hok
      | ok u =>
        cases u
        rw [hs] at hok
        cases hh : VerifyHardwareBinding hwInfo license with
        | error e =>
          rw [hh] at hok
          exact Except.noConfusion hok
        | ok u =>
          cases u
          rw [hh] at hok
          exact ⟨rfl, rfl, hok⟩
    · rintro ⟨hs, hh, he⟩
      rw [IsValid, hs, hh, he]

/-- Witness for the check-order theorem at the concrete expired and
hardware-mismatched license. -/
theorem isValid_order_witness :
    IsValid (fun _ _ => true) (fun _ => []) ⟨[], [], [75]⟩ 10
      ⟨[], [], [], [], 0, 5, [], ⟨[], [], [[72]], []⟩, []⟩ =
      Except.error VerifyError.hostnameMismatch ∧
    VerifyError.hostnameMismatch ≠ VerifyError.expired :=
  (isValid_order (fun _ _ => true) (fun _ => []) ⟨[], [], [75]⟩ 10
    ⟨[], [], [], [], 0, 5, [], ⟨[], [], [[72]], []⟩, []⟩).2.1
    VerifyError.hostnameMismatch (by decide) (by decide)

/-! ## Behaviour of the readers on truncated input

For the malformed-input claim we track how each reader behaves on a
strict prefix of an input it parses successfully: it either fails, or
reads the same value leaving a strict prefix of the original remainder,
or — only for `readString`, whose data read tolerates short reads — it
returns a zero-padded value with the reader exactly at the end. -/

theorem readString_nil : readString [] = none := rfl

theorem readInt64_nil : readInt64 [] = none := rfl

theorem readStringSlice_nil : readStringSlice [] = none := rfl

theorem readU16_take (s r : List Nat) (v : Nat) (j : Nat)
    (h : readU16 s = some (v, r)) (hj : j < s.length) :
    readU16 (s.take j) = none ∨
    (j - 2 < r.length ∧ readU16 (s.take j) = some (v, r.take (j - 2))) := by
  match s, h with
  | b0 :: b1 :: rest, h =>
    obtain ⟨hv, hr⟩ := Prod.mk.injEq .. ▸ Option.some.inj h
    subst hv hr
    match j with
    | 0 => exact Or.inl rfl
    | 1 => exact Or.inl rfl
    | j + 2 =>
      refine Or.inr ⟨?_, rfl⟩
      simp at hj
      omega

theorem readInt64_take (s r : List Nat) (v : Int) (j : Nat)
    (h : readInt64 s = some (v, r)) (hj : j < s.length) :
    readInt64 (s.take j) = none ∨
    (j - 8 < r.length ∧ s.length - j = r.length - (j - 8) ∧
      readInt64 (s.take j) = some (v, r.take (j - 8))) := by
  rw [readInt64] at h
  split at h
  case isFalse => exact Option.noConfusion h
  case isTrue h8 =>
    obtain ⟨hv, hr⟩ := Prod.mk.injEq .. ▸ Option.some.inj h
    subst hr
    rcases Nat.lt_or_ge j 8 with hj8 | hj8
    · left
      rw [readInt64, if_neg]
      rw [List.length_take]
      omega
    · right
      have hlt : (s.take j).length = j := by
        rw [List.length_take]
        omega
      refine ⟨by simp [List.length_drop]; omega, by simp [List.length_drop]; omega, ?_⟩
      rw [readInt64, if_pos (by omega)]
      rw [List.take_take, Nat.min_eq_left hj8, List.drop_take, hv]

theorem readString_take (s x r : List Nat) (j : Nat)
    (h : readString s = some (x, r)) (hj : j < s.length) :
    readString (s.take j) = none ∨
    (∃ j', j' < r.length ∧ s.length - j = r.length - j' ∧
      readString (s.take j) = some (x, r.take j')) ∨
    (∃ y, readString (s.take j) = some (y, [])) := by
  match s with
  | [] => exact Option.noConfusion h
  | [b0] => exact Option.noConfusion h
  | b0 :: b1 :: rest =>
    have hif : readString (b0 :: b1 :: rest) = if rest.isEmpty then none
        else some (rest.take (b0 + 256 * b1) ++
          List.replicate ((b0 + 256 * b1) - rest.length) 0,
          rest.drop (b0 + 256 * b1)) := rfl
    rw [hif] at h
    split at h
    case isTrue => exact Option.noConfusion h
    case isFalse hres =>
      obtain ⟨hx, hr⟩ := Prod.mk.injEq .. ▸ Option.some.inj h
      match j with
      | 0 => exact Or.inl rfl
      | 1 => exact Or.inl rfl
      | j + 2 =>
        have hjr : j < rest.length := by
          simp only [List.length_cons] at hj
          omega
        show readString (b0 :: b1 :: rest.take j) = none ∨
          (∃ j', j' < r.length ∧ (b0 :: b1 :: rest).length - (j + 2) = r.length - j' ∧
            readString (b0 :: b1 :: rest.take j) = some (x, r.take j')) ∨
          (∃ y, readString (b0 :: b1 :: rest.take j) = some (y, []))
        rcases Nat.eq_zero_or_pos j with hj0 | hjpos
        · subst hj0
          exact Or.inl rfl
        · have hlenj : (rest.take j).length = j := by
            rw [List.length_take]
            omega
          have hne : rest.take j ≠ [] := by
            intro e
            rw [e] at hlenj
            simp at hlenj
            omega
          have hif2 : readString (b0 :: b1 :: rest.take j) =
              if (rest.take j).isEmpty then none
              else some ((rest.take j).take (b0 + 256 * b1) ++
                List.replicate ((b0 + 256 * b1) - (rest.take j).length) 0,
                (rest.take j).drop (b0 + 256 * b1)) := rfl
          rw [hif2, if_neg (by simp [List.isEmpty_iff, hne])]
          rcases le_or_lt (b0 + 256 * b1) j with hLj | hLj
          · refine Or.inr (Or.inl ⟨j - (b0 + 256 * b1), ?_, ?_, ?_⟩)
            · rw [← hr]
              simp [List.length_drop]
              omega
            · rw [← hr]
              simp [List.length_drop, List.length_cons]
              omega
            · rw [← hx, ← hr, List.take_take, Nat.min_eq_left hLj, hlenj, List.drop_take,
                show b0 + 256 * b1 - j = 0 by omega,
                show b0 + 256 * b1 - rest.length = 0 by omega]
          · refine Or.inr (Or.inr ⟨(rest.take j).take (b0 + 256 * b1) ++
              List.replicate ((b0 + 256 * b1) - (rest.take j).length) 0, ?_⟩)
            rw [List.drop_eq_nil_of_le (by omega : (rest.take j).length ≤ b0 + 256 * b1)]

theorem readStrings_take (n : Nat) (s : List Nat) (xs : List (List Nat)) (r : List Nat)
    (j : Nat) (h : readStrings n s = some (xs, r)) (hj : j < s.length) :
    readStrings n (s.take j) = none ∨
    (∃ j', j' < r.length ∧ s.length - j = r.length - j' ∧
      readStrings n (s.take j) = some (xs, r.take j')) ∨
    (∃ ys, readStrings n (s.take j) = some (ys, [])) := by
  induction n generalizing s xs r j with
  | zero =>
    obtain ⟨hxs, hr⟩ := Prod.mk.injEq .. ▸ Option.some.inj h
    subst hxs
    subst hr
    exact Or.inr (Or.inl ⟨j, hj, rfl, rfl⟩)
  | succ n ih =>
    have hsucc : ∀ t, readStrings (n + 1) t =
        (readString t).bind fun p =>
        (readStrings n p.2).bind fun q => some (p.1 :: q.1, q.2) := fun t => rfl
    rw [hsucc] at h
    cases hrs : readString s with
    | none =>
      rw [hrs] at h
      exact Option.noConfusion h
    | some p =>
      obtain ⟨x, r1⟩ := p
      rw [hrs] at h
      simp only [Option.some_bind] at h
      cases hrn : readStrings n r1 with
      | none =>
        rw [hrn] at h
        exact Option.noConfusion h
      | some q =>
        obtain ⟨xs', r2⟩ := q
        rw [hrn] at h
        simp only [Option.some_bind] at h
        obtain ⟨hxs, hr⟩ := Prod.mk.injEq .. ▸ Option.some.inj h
        subst hxs
        subst hr
        rw [hsucc]
        rcases readString_take s x r1 j hrs hj with hnone | ⟨j1, hj1, hd1, heq⟩ | ⟨y, heq⟩
        · left
          rw [hnone]
          rfl
        · rw [heq]
          simp only [Option.some_bind]
          rcases ih r1 xs' r2 j1 hrn hj1 with h2 | ⟨j2, hj2, hd2, heq2⟩ | ⟨ys, heq2⟩
          · left
            rw [h2]
            rfl
          · refine Or.inr (Or.inl ⟨j2, hj2, by omega, ?_⟩)
            rw [heq2]
            rfl
          · refine Or.inr (Or.inr ⟨x :: ys, ?_⟩)
            rw [heq2]
            rfl
        · rw [heq]
          simp only [Option.some_bind]
          cases n with
          | zero => exact Or.inr (Or.inr ⟨[y], rfl⟩)
          | succ m =>
            left
            rfl

theorem readStringSlice_take (s : List Nat) (xs : List (List Nat)) (r : List Nat)
    (j : Nat) (h : readStringSlice s = some (xs, r)) (hj : j < s.length) :
    readStringSlice (s.take j) = none ∨
    (∃ j', j' < r.length ∧ s.length - j = r.length - j' ∧
      readStringSlice (s.take j) = some (xs, r.take j')) ∨
    (∃ ys, readStringSlice (s.take j) = some (ys, [])) := by
  match s with
  | [] => exact Option.noConfusion h
  | [b0] => exact Option.noConfusion h
  | b0 :: b1 :: rest =>
    have hs : readStringSlice (b0 :: b1 :: rest) =
        readStrings (b0 + 256 * b1) rest := rfl
    rw [hs] at h
    match j with
    | 0 => exact Or.inl rfl
    | 1 => exact Or.inl rfl
    | j + 2 =>
      have hjr : j < rest.length := by
        simp only [List.length_cons] at hj
        omega
      show readStringSlice (b0 :: b1 :: rest.take j) = none ∨
        (∃ j', j' < r.length ∧ (b0 :: b1 :: rest).length - (j + 2) = r.length - j' ∧
          readStringSlice (b0 :: b1 :: rest.take j) = some (xs, r.take j')) ∨
        (∃ ys, readStringSlice (b0 :: b1 :: rest.take j) = some (ys, []))
      have hs2 : readStringSlice (b0 :: b1 :: rest.take j) =
          readStrings (b0 + 256 * b1) (rest.take j) := rfl
      rw [hs2]
      rcases readStrings_take (b0 + 256 * b1) rest xs r j h hjr with
        hnone | ⟨j1, hj1, hd1, heq⟩ | ⟨ys, heq⟩
      · exact Or.inl hnone
      · refine Or.inr (Or.inl ⟨j1, hj1, ?_, heq⟩)
        simp only [List.length_cons]
        omega
      · exact Or.inr (Or.inr ⟨ys, heq⟩)

theorem readString_prefix (n : Nat) (hn : n ≤ 65535) (R : List Nat) (hR : R ≠ []) :
    readString (toLE 2 n ++ R) =
      some (R.take n ++ List.replicate (n - R.length) 0, R.drop n) := by
  rw [readString, readU16_toLE, Nat.mod_eq_of_lt (by omega : n < 65536)]
  show (if R.isEmpty = true then none
    else some (R.take n ++ List.replicate (n - R.length) 0, R.drop n)) = _
  rw [if_neg (by simp [List.isEmpty_iff, hR])]

theorem readStrings_succ (n : Nat) (t : List Nat) :
    readStrings (n + 1) t =
      (readString t).bind fun p =>
      (readStrings n p.2).bind fun q => some (p.1 :: q.1, q.2) := rfl

theorem readStrings_flatten_take (l : List (List Nat)) (hlen : ∀ s ∈ l, s.length ≤ 65535)
    (k : Nat) (hk : k < ((l.map writeString).flatten).length)
    (hdef : k + (l.getLast?.getD []).length ≤ ((l.map writeString).flatten).length) :
    readStrings l.length (((l.map writeString).flatten).take k) = none := by
  induction l generalizing k with
  | nil => simp at hk
  | cons s t ih =>
    have hs65 : s.length ≤ 65535 := hlen s (by simp)
    have hflen : (((s :: t).map writeString).flatten).length =
        2 + s.length + (((t.map writeString)).flatten).length := by
      simp only [List.map_cons, List.flatten_cons, List.length_append, writeString,
        toLE_length]
    rcases k with _ | _ | m
    · rfl
    · rfl
    · rcases Nat.eq_zero_or_pos m with rfl | hm
      · rfl
      · have hslen : (s ++ (t.map writeString).flatten).length =
            s.length + ((t.map writeString).flatten).length := List.length_append ..
        have hRne : (s ++ (t.map writeString).flatten).take m ≠ [] := by
          intro e
          have hc := congrArg List.length e
          rw [List.length_take] at hc
          simp only [List.length_nil] at hc
          rw [hflen] at hk
          omega
        have hform : ((((s :: t).map writeString)).flatten).take (m + 2) =
            toLE 2 s.length ++ ((s ++ (t.map writeString).flatten).take m) := rfl
        rw [hform, show (s :: t).length = t.length + 1 from rfl, readStrings_succ,
          readString_prefix s.length hs65 _ hRne]
        simp only [Option.some_bind]
        rcases le_or_lt m s.length with hms | hms
        · rw [List.drop_eq_nil_of_le (by rw [List.length_take]; omega)]
          cases t with
          | nil =>
            exfalso
            have hlast : (((s :: ([] : List (List Nat))).getLast?).getD []) = s := rfl
            rw [hlast, hflen] at hdef
            have hemp : (((([] : List (List Nat)).map writeString)).flatten).length = 0 := rfl
            omega
          | cons u t' =>
            rw [show readStrings (u :: t').length [] = none from rfl]
            rfl
        · rw [List.drop_take, List.drop_left]
          cases t with
          | nil =>
            exfalso
            rw [hflen] at hk
            have hemp : (((([] : List (List Nat)).map writeString)).flatten).length = 0 := rfl
            omega
          | cons u t' =>
            have hlast : (((s :: u :: t').getLast?).getD []) =
                (((u :: t').getLast?).getD []) := by
              rw [List.getLast?_cons_cons]
            have hrec := ih (fun x hx => hlen x (List.mem_cons_of_mem s hx)) (m - s.length)
              (by rw [hflen] at hk; omega)
              (by rw [hlast, hflen] at hdef; omega)
            rw [hrec]
            rfl

theorem readStringSlice_take_writeStringSlice (l : List (List Nat))
    (hcount : l.length ≤ 65535) (hlen : ∀ s ∈ l, s.length ≤ 65535)
    (k : Nat) (hk : k < (writeStringSlice l).length)
    (hdef : k + (l.getLast?.getD []).length ≤ (writeStringSlice l).length) :
    readStringSlice ((writeStringSlice l).take k) = none := by
  have hwlen : (writeStringSlice l).length = 2 + ((l.map writeString).flatten).length := by
    simp only [writeStringSlice, List.length_append, toLE_length]
  rcases k with _ | _ | m
  · rfl
  · rfl
  · have hform : (writeStringSlice l).take (m + 2) =
        toLE 2 l.length ++ (((l.map writeString).flatten).take m) := rfl
    rw [hform, readStringSlice, readU16_toLE,
      Nat.mod_eq_of_lt (by omega : l.length < 65536)]
    show readStrings l.length (((l.map writeString).flatten).take m) = none
    exact readStrings_flatten_take l hlen m (by omega) (by omega)

theorem take_header (x n : Nat) (t : List Nat) :
    (1 :: toLE 4 n ++ t).take (x + 5) = 1 :: toLE 4 n ++ t.take x := rfl

theorem decode_header (n : Nat) (t : List Nat) :
    DecodeLicenseData (1 :: toLE 4 n ++ t) = (decodeBodyAux t).map Prod.fst := rfl

set_option maxHeartbeats 2000000 in
theorem decode_truncation_fails_helper (d : LicenseData) (h : EncodeFits d) (j : Nat)
    (hj : j < (EncodeLicenseData d).length)
    (hdef : j + ((d.HardwareIDs.CustomIDs.getLast?).getD []).length ≤
      (EncodeLicenseData d).length) :
    DecodeLicenseData ((EncodeLicenseData d).take j) = none := by
  obtain ⟨idF, cid, pid, sn, idate, edate, feats, ⟨macs, disks, hosts, customs⟩⟩ := d
  simp only [EncodeFits, strFits, sliceFits, int64Fits] at h
  obtain ⟨h1, h2, h3, h4, h5, h6, h7, h8, h9, h10, h11⟩ := h
  replace hdef : j + ((customs.getLast?).getD []).length ≤
      (EncodeLicenseData ⟨idF, cid, pid, sn, idate, edate, feats,
        ⟨macs, disks, hosts, customs⟩⟩).length := hdef
  have hneE1 : idF ++ (writeString cid ++ (writeString pid ++ (writeString sn ++ (int64ToLE idate ++ (int64ToLE edate ++ (writeStringSlice feats ++ (writeStringSlice macs ++ (writeStringSlice disks ++ (writeStringSlice hosts ++ (writeStringSlice customs)))))))))) ≠ [] :=
    append_ne_nil_right _ _ (append_ne_nil_left _ _ (writeString_ne_nil cid))
  have E1 : readString (writeString idF ++ (writeString cid ++ (writeString pid ++ (writeString sn ++ (int64ToLE idate ++ (int64ToLE edate ++ (writeStringSlice feats ++ (writeStringSlice macs ++ (writeStringSlice disks ++ (writeStringSlice hosts ++ (writeStringSlice customs))))))))))) = some (idF, writeString cid ++ (writeString pid ++ (writeString sn ++ (int64ToLE idate ++ (int64ToLE edate ++ (writeStringSlice feats ++ (writeStringSlice macs ++ (writeStringSlice disks ++ (writeStringSlice hosts ++ (writeStringSlice customs)))))))))) :=
    readString_writeString idF (writeString cid ++ (writeString pid ++ (writeString sn ++ (int64ToLE idate ++ (int64ToLE edate ++ (writeStringSlice feats ++ (writeStringSlice macs ++ (writeStringSlice disks ++ (writeStringSlice hosts ++ (writeStringSlice customs)))))))))) h1 hneE1
  have hneE2 : cid ++ (writeString pid ++ (writeString sn ++ (int64ToLE idate ++ (int64ToLE edate ++ (writeStringSlice feats ++ (writeStringSlice macs ++ (writeStringSlice disks ++ (writeStringSlice hosts ++ (writeStringSlice customs))))))))) ≠ [] :=
    append_ne_nil_right _ _ (append_ne_nil_left _ _ (writeString_ne_nil pid))
  have E2 : readString (writeString cid ++ (writeString pid ++ (writeString sn ++ (int64ToLE idate ++ (int64ToLE edate ++ (writeStringSlice feats ++ (writeStringSlice macs ++ (writeStringSlice disks ++ (writeStringSlice hosts ++ (writeStringSlice customs)))))))))) = some (cid, writeString pid ++ (writeString sn ++ (int64ToLE idate ++ (int64ToLE edate ++ (writeStringSlice feats ++ (writeStringSlice macs ++ (writeStringSlice disks ++ (writeStringSlice hosts ++ (writeStringSlice customs))))))))) :=
    readString_writeString cid (writeString pid ++ (writeString sn ++ (int64ToLE idate ++ (int64ToLE edate ++ (writeStringSlice feats ++ (writeStringSlice macs ++ (writeStringSlice disks ++ (writeStringSlice hosts ++ (writeStringSlice customs))))))))) h2 hneE2
  have hneE3 : pid ++ (writeString sn ++ (int64ToLE idate ++ (int64ToLE edate ++ (writeStringSlice feats ++ (writeStringSlice macs ++ (writeStringSlice disks ++ (writeStringSlice hosts ++ (writeStringSlice customs)))))))) ≠ [] :=
    append_ne_nil_right _ _ (append_ne_nil_left _ _ (writeString_ne_nil sn))
  have E3 : readString (writeString pid ++ (writeString sn ++ (int64ToLE idate ++ (int64ToLE edate ++ (writeStringSlice feats ++ (writeStringSlice macs ++ (writeStringSlice disks ++ (writeStringSlice hosts ++ (writeStringSlice customs))))))))) = some (pid, writeString sn ++ (int64ToLE idate ++ (int64ToLE edate ++ (writeStringSlice feats ++ (writeStringSlice macs ++ (writeStringSlice disks ++ (writeStringSlice hosts ++ (writeStringSlice customs)))))))) :=
    readString_writeString pid (writeString sn ++ (int64ToLE idate ++ (int64ToLE edate ++ (writeStringSlice feats ++ (writeStringSlice macs ++ (writeStringSlice disks ++ (writeStringSlice hosts ++ (writeStringSlice customs)))))))) h3 hneE3
  have hneE4 : sn ++ (int64ToLE idate ++ (int64ToLE edate ++ (writeStringSlice feats ++ (writeStringSlice macs ++ (writeStringSlice disks ++ (writeStringSlice hosts ++ (writeStringSlice customs))))))) ≠ [] :=
    append_ne_nil_right _ _ (append_ne_nil_left _ _ (int64ToLE_ne_nil idate))
  have E4 : readString (writeString sn ++ (int64ToLE idate ++ (int64ToLE edate ++ (writeStringSlice feats ++ (writeStringSlice macs ++ (writeStringSlice disks ++ (writeStringSlice hosts ++ (writeStringSlice customs)))))))) = some (sn, int64ToLE idate ++ (int64ToLE edate ++ (writeStringSlice feats ++ (writeStringSlice macs ++ (writeStringSlice disks ++ (writeStringSlice hosts ++ (writeStringSlice customs))))))) :=
    readString_writeString sn (int64ToLE idate ++ (int64ToLE edate ++ (writeStringSlice feats ++ (writeStringSlice macs ++ (writeStringSlice disks ++ (writeStringSlice hosts ++ (writeStringSlice customs))))))) h4 hneE4
  have E5 : readInt64 (int64ToLE idate ++ (int64ToLE edate ++ (writeStringSlice feats ++ (writeStringSlice macs ++ (writeStringSlice disks ++ (writeStringSlice hosts ++ (writeStringSlice customs))))))) = some (idate, int64ToLE edate ++ (writeStringSlice feats ++ (writeStringSlice macs ++ (writeStringSlice disks ++ (writeStringSlice hosts ++ (writeStringSlice customs)))))) :=
    readInt64_int64ToLE idate (int64ToLE edate ++ (writeStringSlice feats ++ (writeStringSlice macs ++ (writeStringSlice disks ++ (writeStringSlice hosts ++ (writeStringSlice customs)))))) h5.1 h5.2
  have E6 : readInt64 (int64ToLE edate ++ (writeStringSlice feats ++ (writeStringSlice macs ++ (writeStringSlice disks ++ (writeStringSlice hosts ++ (writeStringSlice customs)))))) = some (edate, writeStringSlice feats ++ (writeStringSlice macs ++ (writeStringSlice disks ++ (writeStringSlice hosts ++ (writeStringSlice customs))))) :=
    readInt64_int64ToLE edate (writeStringSlice feats ++ (writeStringSlice macs ++ (writeStringSlice disks ++ (writeStringSlice hosts ++ (writeStringSlice customs))))) h6.1 h6.2
  have E7 : readStringSlice (writeStringSlice feats ++ (writeStringSlice macs ++ (writeStringSlice disks ++ (writeStringSlice hosts ++ (writeStringSlice customs))))) = some (feats, writeStringSlice macs ++ (writeStringSlice disks ++ (writeStringSlice hosts ++ (writeStringSlice customs)))) :=
    readStringSlice_writeStringSlice feats (writeStringSlice macs ++ (writeStringSlice disks ++ (writeStringSlice hosts ++ (writeStringSlice customs)))) h7.1 h7.2
      (Or.inl (append_ne_nil_left _ _ (writeStringSlice_ne_nil macs)))
  have E8 : readStringSlice (writeStringSlice macs ++ (writeStringSlice disks ++ (writeStringSlice hosts ++ (writeStringSlice customs)))) = some (macs, writeStringSlice disks ++ (writeStringSlice hosts ++ (writeStringSlice customs))) :=
    readStringSlice_writeStringSlice macs (writeStringSlice disks ++ (writeStringSlice hosts ++ (writeStringSlice customs))) h8.1 h8.2
      (Or.inl (append_ne_nil_left _ _ (writeStringSlice_ne_nil disks)))
  have E9 : readStringSlice (writeStringSlice disks ++ (writeStringSlice hosts ++ (writeStringSlice customs))) = some (disks, writeStringSlice hosts ++ (writeStringSlice customs)) :=
    readStringSlice_writeStringSlice disks (writeStringSlice hosts ++ (writeStringSlice customs)) h9.1 h9.2
      (Or.inl (append_ne_nil_left _ _ (writeStringSlice_ne_nil hosts)))
  have E10 : readStringSlice (writeStringSlice hosts ++ (writeStringSlice customs)) = some (hosts, writeStringSlice customs) :=
    readStringSlice_writeStringSlice hosts (writeStringSlice customs) h10.1 h10.2
      (Or.inl (writeStringSlice_ne_nil customs))
  have hform : EncodeLicenseData ⟨idF, cid, pid, sn, idate, edate, feats, ⟨macs, disks, hosts, customs⟩⟩ =
      1 :: toLE 4 (writeString idF ++ (writeString cid ++ (writeString pid ++ (writeString sn ++ (int64ToLE idate ++ (int64ToLE edate ++ (writeStringSlice feats ++ (writeStringSlice macs ++ (writeStringSlice disks ++ (writeStringSlice hosts ++ (writeStringSlice customs))))))))))).length ++ (writeString idF ++ (writeString cid ++ (writeString pid ++ (writeString sn ++ (int64ToLE idate ++ (int64ToLE edate ++ (writeStringSlice feats ++ (writeStringSlice macs ++ (writeStringSlice disks ++ (writeStringSlice hosts ++ (writeStringSlice customs))))))))))) := rfl
  have hlen5 : (EncodeLicenseData ⟨idF, cid, pid, sn, idate, edate, feats, ⟨macs, disks, hosts, customs⟩⟩).length = 5 + (writeString idF ++ (writeString cid ++ (writeString pid ++ (writeString sn ++ (int64ToLE idate ++ (int64ToLE edate ++ (writeStringSlice feats ++ (writeStringSlice macs ++ (writeStringSlice disks ++ (writeStringSlice hosts ++ (writeStringSlice customs))))))))))).length := by
    rw [hform]
    simp only [List.length_cons, List.length_append, toLE_length]
  rcases Nat.lt_or_ge j 5 with hj5 | hj5
  · apply DecodeLicenseData_short
    rw [List.length_take]
    omega
  · obtain ⟨k, rfl⟩ : ∃ k, j = k + 5 := ⟨j - 5, by omega⟩
    have hk : k < (writeString idF ++ (writeString cid ++ (writeString pid ++ (writeString sn ++ (int64ToLE idate ++ (int64ToLE edate ++ (writeStringSlice feats ++ (writeStringSlice macs ++ (writeStringSlice disks ++ (writeStringSlice hosts ++ (writeStringSlice customs))))))))))).length := by
      rw [hlen5] at hj
      omega
    have hL1 : k + ((customs.getLast?).getD []).length ≤ (writeString idF ++ (writeString cid ++ (writeString pid ++ (writeString sn ++ (int64ToLE idate ++ (int64ToLE edate ++ (writeStringSlice feats ++ (writeStringSlice macs ++ (writeStringSlice disks ++ (writeStringSlice hosts ++ (writeStringSlice customs))))))))))).length := by
      rw [hlen5] at hdef
      omega
    rw [hform, take_header, decode_header]
    suffices hsuf : decodeBodyAux ((writeString idF ++ (writeString cid ++ (writeString pid ++ (writeString sn ++ (int64ToLE idate ++ (int64ToLE edate ++ (writeStringSlice feats ++ (writeStringSlice macs ++ (writeStringSlice disks ++ (writeStringSlice hosts ++ (writeStringSlice customs))))))))))).take k) = none by
      rw [hsuf]
      rfl
    rcases readString_take (writeString idF ++ (writeString cid ++ (writeString pid ++ (writeString sn ++ (int64ToLE idate ++ (int64ToLE edate ++ (writeStringSlice feats ++ (writeStringSlice macs ++ (writeStringSlice disks ++ (writeStringSlice hosts ++ (writeStringSlice customs))))))))))) idF (writeString cid ++ (writeString pid ++ (writeString sn ++ (int64ToLE idate ++ (int64ToLE edate ++ (writeStringSlice feats ++ (writeStringSlice macs ++ (writeStringSlice disks ++ (writeStringSlice hosts ++ (writeStringSlice customs)))))))))) k E1 hk with hq1 | ⟨k1, hk1, hd1, hq1⟩ | ⟨y1, hq1⟩
    · simp [decodeBodyAux, hq1]
    · simp only [decodeBodyAux, hq1, Option.some_bind]
      have hL2 : k1 + ((customs.getLast?).getD []).length ≤ (writeString cid ++ (writeString pid ++ (writeString sn ++ (int64ToLE idate ++ (int64ToLE edate ++ (writeStringSlice feats ++ (writeStringSlice macs ++ (writeStringSlice disks ++ (writeStringSlice hosts ++ (writeStringSlice customs)))))))))).length := by
        omega
      rcases readString_take (writeString cid ++ (writeString pid ++ (writeString sn ++ (int64ToLE idate ++ (int64ToLE edate ++ (writeStringSlice feats ++ (writeStringSlice macs ++ (writeStringSlice disks ++ (writeStringSlice hosts ++ (writeStringSlice customs)))))))))) cid (writeString pid ++ (writeString sn ++ (int64ToLE idate ++ (int64ToLE edate ++ (writeStringSlice feats ++ (writeStringSlice macs ++ (writeStringSlice disks ++ (writeStringSlice hosts ++ (writeStringSlice customs))))))))) k1 E2 hk1 with hq2 | ⟨k2, hk2, hd2, hq2⟩ | ⟨y2, hq2⟩
      · simp [hq2]
      · simp only [hq2, Option.some_bind]
        have hL3 : k2 + ((customs.getLast?).getD []).length ≤ (writeString pid ++ (writeString sn ++ (int64ToLE idate ++ (int64ToLE edate ++ (writeStringSlice feats ++ (writeStringSlice macs ++ (writeStringSlice disks ++ (writeStringSlice hosts ++ (writeStringSlice customs))))))))).length := by
          omega
        rcases readString_take (writeString pid ++ (writeString sn ++ (int64ToLE idate ++ (int64ToLE edate ++ (writeStringSlice feats ++ (writeStringSlice macs ++ (writeStringSlice disks ++ (writeStringSlice hosts ++ (writeStringSlice customs))))))))) pid (writeString sn ++ (int64ToLE idate ++ (int64ToLE edate ++ (writeStringSlice feats ++ (writeStringSlice macs ++ (writeStringSlice disks ++ (writeStringSlice hosts ++ (writeStringSlice customs)))))))) k2 E3 hk2 with hq3 | ⟨k3, hk3, hd3, hq3⟩ | ⟨y3, hq3⟩
        · simp [hq3]
        · simp only [hq3, Option.some_bind]
          have hL4 : k3 + ((customs.getLast?).getD []).length ≤ (writeString sn ++ (int64ToLE idate ++ (int64ToLE edate ++ (writeStringSlice feats ++ (writeStringSlice macs ++ (writeStringSlice disks ++ (writeStringSlice hosts ++ (writeStringSlice customs)))))))).length := by
            omega
          rcases readString_take (writeString sn ++ (int64ToLE idate ++ (int64ToLE edate ++ (writeStringSlice feats ++ (writeStringSlice macs ++ (writeStringSlice disks ++ (writeStringSlice hosts ++ (writeStringSlice customs)))))))) sn (int64ToLE idate ++ (int64ToLE edate ++ (writeStringSlice feats ++ (writeStringSlice macs ++ (writeStringSlice disks ++ (writeStringSlice hosts ++ (writeStringSlice customs))))))) k3 E4 hk3 with hq4 | ⟨k4, hk4, hd4, hq4⟩ | ⟨y4, hq4⟩
          · simp [hq4]
          · simp only [hq4, Option.some_bind]
            have hL5 : k4 + ((customs.getLast?).getD []).length ≤ (int64ToLE idate ++ (int64ToLE edate ++ (writeStringSlice feats ++ (writeStringSlice macs ++ (writeStringSlice disks ++ (writeStringSlice hosts ++ (writeStringSlice customs))))))).length := by
              omega
            rcases readInt64_take (int64ToLE idate ++ (int64ToLE edate ++ (writeStringSlice feats ++ (writeStringSlice macs ++ (writeStringSlice disks ++ (writeStringSlice hosts ++ (writeStringSlice customs))))))) (int64ToLE edate ++ (writeStringSlice feats ++ (writeStringSlice macs ++ (writeStringSlice disks ++ (writeStringSlice hosts ++ (writeStringSlice customs)))))) idate k4 E5 hk4 with hq5 | ⟨hk5, hd5, hq5⟩
            · simp [hq5]
            · simp only [hq5, Option.some_bind]
              have hL6 : (k4 - 8) + ((customs.getLast?).getD []).length ≤ (int64ToLE edate ++ (writeStringSlice feats ++ (writeStringSlice macs ++ (writeStringSlice disks ++ (writeStringSlice hosts ++ (writeStringSlice customs)))))).length := by
                omega
              rcases readInt64_take (int64ToLE edate ++ (writeStringSlice feats ++ (writeStringSlice macs ++ (writeStringSlice disks ++ (writeStringSlice hosts ++ (writeStringSlice customs)))))) (writeStringSlice feats ++ (writeStringSlice macs ++ (writeStringSlice disks ++ (writeStringSlice hosts ++ (writeStringSlice customs))))) edate (k4 - 8) E6 hk5 with hq6 | ⟨hk6, hd6, hq6⟩
              · simp [hq6]
              · simp only [hq6, Option.some_bind]
                have hL7 : ((k4 - 8) - 8) + ((customs.getLast?).getD []).length ≤ (writeStringSlice feats ++ (writeStringSlice macs ++ (writeStringSlice disks ++ (writeStringSlice hosts ++ (writeStringSlice customs))))).length := by
                  omega
                rcases readStringSlice_take (writeStringSlice feats ++ (writeStringSlice macs ++ (writeStringSlice disks ++ (writeStringSlice hosts ++ (writeStringSlice customs))))) feats (writeStringSlice macs ++ (writeStringSlice disks ++ (writeStringSlice hosts ++ (writeStringSlice customs)))) ((k4 - 8) - 8) E7 hk6 with hq7 | ⟨k7, hk7, hd7, hq7⟩ | ⟨y7, hq7⟩
                · simp [hq7]
                · simp only [hq7, Option.some_bind]
                  have hL8 : k7 + ((customs.getLast?).getD []).length ≤ (writeStringSlice macs ++ (writeStringSlice disks ++ (writeStringSlice hosts ++ (writeStringSlice customs)))).length := by
                    omega
                  rcases readStringSlice_take (writeStringSlice macs ++ (writeStringSlice disks ++ (writeStringSlice hosts ++ (writeStringSlice customs)))) macs (writeStringSlice disks ++ (writeStringSlice hosts ++ (writeStringSlice customs))) k7 E8 hk7 with hq8 | ⟨k8, hk8, hd8, hq8⟩ | ⟨y8, hq8⟩
                  · simp [hq8]
                  · simp only [hq8, Option.some_bind]
                    have hL9 : k8 + ((customs.getLast?).getD []).length ≤ (writeStringSlice disks ++ (writeStringSlice hosts ++ (writeStringSlice customs))).length := by
                      omega
                    rcases readStringSlice_take (writeStringSlice disks ++ (writeStringSlice hosts ++ (writeStringSlice customs))) disks (writeStringSlice hosts ++ (writeStringSlice customs)) k8 E9 hk8 with hq9 | ⟨k9, hk9, hd9, hq9⟩ | ⟨y9, hq9⟩
                    · simp [hq9]
                    · simp only [hq9, Option.some_bind]
                      have hL10 : k9 + ((customs.getLast?).getD []).length ≤ (writeStringSlice hosts ++ (writeStringSlice customs)).length := by
                        omega
                      rcases readStringSlice_take (writeStringSlice hosts ++ (writeStringSlice customs)) hosts (writeStringSlice customs) k9 E10 hk9 with hq10 | ⟨k10, hk10, hd10, hq10⟩ | ⟨y10, hq10⟩
                      · simp [hq10]
                      · simp only [hq10, Option.some_bind]
                        have hL11 : k10 + ((customs.getLast?).getD []).length ≤ (writeStringSlice customs).length := by
                          omega
                        rw [readStringSlice_take_writeStringSlice customs h11.1 h11.2 k10 hk10 hL11]
                        rfl
                      · simp [hq10, Option.some_bind, readStringSlice_nil]
                    · simp [hq9, Option.some_bind, readStringSlice_nil]
                  · simp [hq8, Option.some_bind, readStringSlice_nil]
                · simp [hq7, Option.some_bind, readStringSlice_nil]
          · simp [hq4, Option.some_bind, readInt64_nil]
        · simp [hq3, Option.some_bind, readString_nil]
      · simp [hq2, Option.some_bind, readString_nil]
    · simp [decodeBodyAux, hq1, Option.some_bind, readString_nil]

/-- C5, counterexample.  Truncating one byte off the valid encoding of an
in-bounds payload whose final custom ID is the two-byte string
`[97, 98]` does not make decoding fail: the final `buf.Read` silently
under-reads, and decode succeeds with a different payload whose final
custom ID is `[97, 0]` — the missing byte replaced by the zero the Go
code left in `make([]byte, length)`. -/
theorem truncated_encoding_decodes_to_wrong_payload :
    EncodeFits ⟨[65], [66], [], [], 100, -7, [[70, 71]], ⟨[[1, 2]], [], [[3]], [[97, 98]]⟩⟩ ∧
    DecodeLicenseData ((EncodeLicenseData
        ⟨[65], [66], [], [], 100, -7, [[70, 71]], ⟨[[1, 2]], [], [[3]], [[97, 98]]⟩⟩).take
      ((EncodeLicenseData
        ⟨[65], [66], [], [], 100, -7, [[70, 71]], ⟨[[1, 2]], [], [[3]], [[97, 98]]⟩⟩).length - 1)) =
      some ⟨[65], [66], [], [], 100, -7, [[70, 71]], ⟨[[1, 2]], [], [[3]], [[97, 0]]⟩⟩ ∧
    (⟨[65], [66], [], [], 100, -7, [[70, 71]], ⟨[[1, 2]], [], [[3]], [[97, 0]]⟩⟩ : LicenseData) ≠
      ⟨[65], [66], [], [], 100, -7, [[70, 71]], ⟨[[1, 2]], [], [[3]], [[97, 98]]⟩⟩ := by
  refine ⟨by decide, by decide, by decide⟩

/-- C5 (amended): for every in-bounds payload, truncating its encoding at
any point that does not land strictly inside the byte content of the
final encoded custom ID string makes decoding fail.  (The final custom
ID's content occupies the last bytes of the encoding; a truncation
strictly inside it instead decodes successfully to a different payload
with that string zero-padded, as the counterexample shows.) -/
theorem truncation_fails_outside_final_custom_content (d : LicenseData) (h : EncodeFits d)
    (j : Nat) (hj : j < (EncodeLicenseData d).length)
    (hdef : j + ((d.HardwareIDs.CustomIDs.getLast?).getD []).length ≤
      (EncodeLicenseData d).length) :
    DecodeLicenseData ((EncodeLicenseData d).take j) = none :=
  decode_truncation_fails_helper d h j hj hdef

/-- Witness for the truncation-failure theorem: cutting a concrete
44-byte encoding (final custom ID `[97, 98]`) at byte 42 — exactly the
start of the final string's content — fails to decode. -/
theorem truncation_fails_outside_final_custom_content_witness :
    DecodeLicenseData ((EncodeLicenseData
      ⟨[65], [], [], [], 0, 0, [], ⟨[], [], [], [[97, 98]]⟩⟩).take 42) = none :=
  truncation_fails_outside_final_custom_content
    ⟨[65], [], [], [], 0, 0, [], ⟨[], [], [], [[97, 98]]⟩⟩ (by decide) 42 (by decide)
    (by decide)

set_option maxRecDepth 40000 in
/-- C6, counterexample.  With a 4096-bit key the signature is 512 bytes
(the key's modulus size), but on a 768-byte file `LoadLicense` splits
off the fixed final 256 bytes: the extracted "signature" has length 256,
not 512, so the split is wrong for any key other than 2048 bits. -/
theorem loadLicense_split_wrong_for_4096_bit_keys :
    splitLicenseFile (List.replicate 768 0) =
      some (List.replicate 512 0, List.replicate 256 0) ∧
    (List.replicate 256 (0 : Nat)).length ≠ 512 := by
  refine ⟨by decide, by decide⟩

/-- C6 (amended): the signature part split off by `LoadLicense` always
has exactly 256 bytes — the hard-coded RSA-2048 modulus size —
regardless of the verifier's actual key, and payload and signature
partition the file; the split is therefore correct only for 2048-bit
signing keys. -/
theorem loadLicense_split_always_256 (data pay sig : List Nat)
    (h : splitLicenseFile data = some (pay, sig)) :
    sig.length = 256 ∧ pay ++ sig = data ∧ 256 ≤ data.length := by
  rw [splitLicenseFile] at h
  split at h
  case isTrue => exact Option.noConfusion h
  case isFalse hge =>
    obtain ⟨hp, hs⟩ := Prod.mk.injEq .. ▸ Option.some.inj h
    subst hp
    subst hs
    refine ⟨?_, List.take_append_drop .., by omega⟩
    rw [List.length_drop]
    omega

set_option maxRecDepth 40000 in
/-- Witness for the split theorem on a concrete 300-byte file. -/
theorem loadLicense_split_always_256_witness :
    (List.replicate 256 (1 : Nat)).length = 256 ∧
    List.replicate 44 (1 : Nat) ++ List.replicate 256 1 = List.replicate 300 1 ∧
    256 ≤ (List.replicate 300 (1 : Nat)).length :=
  loadLicense_split_always_256 (List.replicate 300 1) (List.replicate 44 1)
    (List.replicate 256 1) (by decide)

set_option maxRecDepth 100000 in
/-- C3, counterexample.  Two license files whose payload bytes differ
(at offset 1, inside the body-length header field the decoder ignores)
both binary-decode, and `LoadLicense` produces *identical* `License`
values for them; signature verification receives only that value, so no
signature check can distinguish the two loaded byte sequences — contrary
to the claim that verification is bound to the loaded payload bytes. -/
theorem loaded_bytes_not_distinguished :
    EncodeLicenseData ⟨[65], [66], [], [], 100, 7, [[70]], ⟨[[1]], [], [[3]], [[97]]⟩⟩ ++
        List.replicate 256 9 ≠
      (EncodeLicenseData ⟨[65], [66], [], [], 100, 7, [[70]], ⟨[[1]], [], [[3]], [[97]]⟩⟩).set 1 99 ++
        List.replicate 256 9 ∧
    LoadLicense (fun _ => none)
        (EncodeLicenseData ⟨[65], [66], [], [], 100, 7, [[70]], ⟨[[1]], [], [[3]], [[97]]⟩⟩ ++
          List.replicate 256 9) =
      LoadLicense (fun _ => none)
        ((EncodeLicenseData ⟨[65], [66], [], [], 100, 7, [[70]], ⟨[[1]], [], [[3]], [[97]]⟩⟩).set 1 99 ++
          List.replicate 256 9) ∧
    LoadLicense (fun _ => none)
        (EncodeLicenseData ⟨[65], [66], [], [], 100, 7, [[70]], ⟨[[1]], [], [[3]], [[97]]⟩⟩ ++
          List.replicate 256 9) ≠ none := by
  refine ⟨by decide, by decide, by decide⟩

/-- C3 (amended): `VerifySignature` never consults the loaded payload
bytes — it re-encodes the decoded `License` value and verifies against
that canonical encoding (with a JSON fallback on the same value).  Any
two files whose payload parts binary-decode to the same payload and
whose signature parts agree therefore receive identical verification
verdicts for every signature oracle: verification cannot distinguish
them. -/
theorem verifySignature_depends_only_on_decoded_value
    (rv : List Nat → List Nat → Bool) (jm : License → List Nat)
    (ju : List Nat → Option License) (f1 f2 pay1 pay2 sig1 sig2 : List Nat)
    (d : LicenseData)
    (h1 : splitLicenseFile f1 = some (pay1, sig1))
    (h2 : splitLicenseFile f2 = some (pay2, sig2))
    (hd1 : DecodeLicenseData pay1 = some d)
    (hd2 : DecodeLicenseData pay2 = some d)
    (hsig : sig1 = sig2) :
    (LoadLicense ju f1).map (VerifySignature rv jm) =
      (LoadLicense ju f2).map (VerifySignature rv jm) := by
  simp only [LoadLicense, h1, h2, hd1, hd2, hsig]

set_option maxRecDepth 100000 in
/-- Witness for the canonical-bytes theorem at the two concrete files of
the counterexample, with a signature oracle that accepts equal bytes. -/
theorem verifySignature_depends_only_on_decoded_value_witness :
    (LoadLicense (fun _ => none)
        (EncodeLicenseData ⟨[65], [66], [], [], 100, 7, [[70]], ⟨[[1]], [], [[3]], [[97]]⟩⟩ ++
          List.replicate 256 9)).map
        (VerifySignature (fun a b => a = b) (fun _ => [])) =
      (LoadLicense (fun _ => none)
        ((EncodeLicenseData ⟨[65], [66], [], [], 100, 7, [[70]], ⟨[[1]], [], [[3]], [[97]]⟩⟩).set 1 99 ++
          List.replicate 256 9)).map
        (VerifySignature (fun a b => a = b) (fun _ => [])) :=
  verifySignature_depends_only_on_decoded_value (fun a b => a = b) (fun _ => [])
    (fun _ => none)
    (EncodeLicenseData ⟨[65], [66], [], [], 100, 7, [[70]], ⟨[[1]], [], [[3]], [[97]]⟩⟩ ++
      List.replicate 256 9)
    ((EncodeLicenseData ⟨[65], [66], [], [], 100, 7, [[70]], ⟨[[1]], [], [[3]], [[97]]⟩⟩).set 1 99 ++
      List.replicate 256 9)
    (EncodeLicenseData ⟨[65], [66], [], [], 100, 7, [[70]], ⟨[[1]], [], [[3]], [[97]]⟩⟩)
    ((EncodeLicenseData ⟨[65], [66], [], [], 100, 7, [[70]], ⟨[[1]], [], [[3]], [[97]]⟩⟩).set 1 99)
    (List.replicate 256 9) (List.replicate 256 9)
    ⟨[65], [66], [], [], 100, 7, [[70]], ⟨[[1]], [], [[3]], [[97]]⟩⟩
    (by decide) (by decide) (by decide) (by decide) rfl

theorem decode_cons5 (v a b c e : Nat) (t : List Nat) :
    DecodeLicenseData (v :: a :: b :: c :: e :: t) =
      if v = currentVersion then (decodeBodyAux t).map Prod.fst else none := rfl

theorem encode_oversized_bytes :
    EncodeLicenseData ⟨List.replicate 65536 0, [], [], [], 0, 0, [], ⟨[], [], [], []⟩⟩ =
      1 :: 34 :: 0 :: 1 :: 0 :: 0 :: 0 :: (List.replicate 65536 0 ++ List.replicate 32 0) := by
  have htail : writeString [] ++ (writeString [] ++ (writeString [] ++ (int64ToLE 0 ++
      (int64ToLE 0 ++ (writeStringSlice [] ++ (writeStringSlice [] ++ (writeStringSlice [] ++
      (writeStringSlice [] ++ writeStringSlice ([] : List (List Nat)))))))))) =
      List.replicate 32 0 := by decide
  have h1 : writeString (List.replicate 65536 (0 : Nat)) =
      0 :: 0 :: List.replicate 65536 0 := by
    rw [writeString, List.length_replicate, toLE_two]
    norm_num
  have hbody : encodeBody ⟨List.replicate 65536 0, [], [], [], 0, 0, [], ⟨[], [], [], []⟩⟩ =
      0 :: 0 :: (List.replicate 65536 0 ++ List.replicate 32 0) := by
    show writeString (List.replicate 65536 0) ++ (writeString [] ++ (writeString [] ++
      (writeString [] ++ (int64ToLE 0 ++ (int64ToLE 0 ++ (writeStringSlice [] ++
      (writeStringSlice [] ++ (writeStringSlice [] ++ (writeStringSlice [] ++
      writeStringSlice []))))))))) = _
    rw [htail, h1]
    rfl
  have hlen : (encodeBody
      ⟨List.replicate 65536 0, [], [], [], 0, 0, [], ⟨[], [], [], []⟩⟩).length = 65570 := by
    rw [hbody, List.length_cons, List.length_cons, List.length_append,
      List.length_replicate, List.length_replicate]
  rw [EncodeLicenseData, hlen, toLE_four, hbody]
  norm_num [currentVersion]

set_option maxHeartbeats 4000000 in
theorem decodeBodyAux_zero_run (n : Nat) (z : List Nat) (hn : 32 ≤ n) :
    ∃ r, decodeBodyAux (0 :: 0 :: (List.replicate n 0 ++ z)) =
      some (⟨[], [], [], [], 0, 0, [], ⟨[], [], [], []⟩⟩, r) := by
  have hrs0 : ∀ t : List Nat, t ≠ [] → readString (0 :: 0 :: t) = some ([], t) := by
    intro t ht
    have he : readString (0 :: 0 :: t) = if t.isEmpty then none
        else some (t.take (0 + 256 * 0) ++ List.replicate ((0 + 256 * 0) - t.length) 0,
          t.drop (0 + 256 * 0)) := rfl
    rw [he, if_neg (by simp [List.isEmpty_iff, ht])]
    simp
  have hsl0 : ∀ t : List Nat, readStringSlice (0 :: 0 :: t) = some ([], t) := fun t => rfl
  have hpeel : ∀ (m : Nat) (w : List Nat),
      List.replicate (m + 2) (0 : Nat) ++ w = 0 :: 0 :: (List.replicate m 0 ++ w) :=
    fun m w => rfl
  have hne : ∀ (a : Nat) (w : List Nat), 0 < a → List.replicate a (0 : Nat) ++ w ≠ [] := by
    intro a w ha he
    have := congrArg List.length he
    rw [List.length_append, List.length_replicate] at this
    simp at this
    omega
  have hint : ∀ (a : Nat) (w : List Nat),
      readInt64 (List.replicate (a + 8) (0 : Nat) ++ w) =
        some (0, List.replicate a 0 ++ w) := by
    intro a w
    rw [readInt64,
      if_pos (by rw [List.length_append, List.length_replicate]; omega),
      List.take_append_of_le_length (by rw [List.length_replicate]; omega),
      List.take_replicate, Nat.min_eq_left (by omega),
      List.drop_append_of_le_length (by rw [List.length_replicate]; omega),
      List.drop_replicate,
      show a + 8 - 8 = a by omega,
      show fromLE (List.replicate 8 (0 : Nat)) = 0 from rfl,
      show int64OfNat 0 = 0 from rfl]
  simp only [decodeBodyAux]
  rw [hrs0 _ (hne n z (by omega))]
  simp only [Option.some_bind]
  obtain ⟨m2, rfl⟩ : ∃ m, n = m + 2 := ⟨n - 2, by omega⟩
  rw [hpeel m2 z, hrs0 _ (hne m2 z (by omega))]
  simp only [Option.some_bind]
  obtain ⟨m3, rfl⟩ : ∃ m, m2 = m + 2 := ⟨m2 - 2, by omega⟩
  rw [hpeel m3 z, hrs0 _ (hne m3 z (by omega))]
  simp only [Option.some_bind]
  obtain ⟨m4, rfl⟩ : ∃ m, m3 = m + 2 := ⟨m3 - 2, by omega⟩
  rw [hpeel m4 z, hrs0 _ (hne m4 z (by omega))]
  simp only [Option.some_bind]
  obtain ⟨m5, rfl⟩ : ∃ m, m4 = m + 8 := ⟨m4 - 8, by omega⟩
  rw [hint m5 z]
  simp only [Option.some_bind]
  obtain ⟨m6, rfl⟩ : ∃ m, m5 = m + 8 := ⟨m5 - 8, by omega⟩
  rw [hint m6 z]
  simp only [Option.some_bind]
  obtain ⟨m7, rfl⟩ : ∃ m, m6 = m + 2 := ⟨m6 - 2, by omega⟩
  rw [hpeel m7 z, hsl0]
  simp only [Option.some_bind]
  obtain ⟨m8, rfl⟩ : ∃ m, m7 = m + 2 := ⟨m7 - 2, by omega⟩
  rw [hpeel m8 z, hsl0]
  simp only [Option.some_bind]
  obtain ⟨m9, rfl⟩ : ∃ m, m8 = m + 2 := ⟨m8 - 2, by omega⟩
  rw [hpeel m9 z, hsl0]
  simp only [Option.some_bind]
  obtain ⟨m10, rfl⟩ : ∃ m, m9 = m + 2 := ⟨m9 - 2, by omega⟩
  rw [hpeel m10 z, hsl0]
  simp only [Option.some_bind]
  obtain ⟨m11, rfl⟩ : ∃ m, m10 = m + 2 := ⟨m10 - 2, by omega⟩
  rw [hpeel m11 z, hsl0]
  simp only [Option.some_bind]
  exact ⟨List.replicate m11 0 ++ z, rfl⟩

theorem decode_encode_oversized :
    DecodeLicenseData (EncodeLicenseData
      ⟨List.replicate 65536 0, [], [], [], 0, 0, [], ⟨[], [], [], []⟩⟩) =
      some ⟨[], [], [], [], 0, 0, [], ⟨[], [], [], []⟩⟩ := by
  obtain ⟨r, hr⟩ := decodeBodyAux_zero_run 65536 (List.replicate 32 0) (by norm_num)
  rw [encode_oversized_bytes, decode_cons5,
    if_pos (show (1 : Nat) = currentVersion from rfl), hr]
  rfl

theorem toLE_two_mod (n : Nat) : toLE 2 n = toLE 2 (n % 65536) := by
  rw [toLE_two, toLE_two]
  have h1 : n % 65536 % 256 = n % 256 := Nat.mod_mod_of_dvd _ (by norm_num)
  have h2 : n % 65536 / 256 % 256 = n / 256 % 256 := by omega
  rw [h1, h2]

/-- C4, counterexample.  The payload whose `id` is 65536 zero bytes is
encoded with no error at all: the encoder emits a complete byte sequence
whose id length prefix (bytes 5 and 6) is `0, 0` — `uint16(65536)` —
while all 65536 id bytes still follow.  Decoding that output even
*succeeds*, silently returning the empty payload: nothing was rejected
and the length field was silently truncated. -/
theorem encoder_accepts_and_truncates_oversized_id :
    EncodeLicenseData ⟨List.replicate 65536 0, [], [], [], 0, 0, [], ⟨[], [], [], []⟩⟩ =
      1 :: 34 :: 0 :: 1 :: 0 :: 0 :: 0 :: (List.replicate 65536 0 ++ List.replicate 32 0) ∧
    (List.replicate 65536 (0 : Nat)).length = 65536 ∧
    DecodeLicenseData (EncodeLicenseData
        ⟨List.replicate 65536 0, [], [], [], 0, 0, [], ⟨[], [], [], []⟩⟩) =
      some ⟨[], [], [], [], 0, 0, [], ⟨[], [], [], []⟩⟩ :=
  ⟨encode_oversized_bytes, List.length_replicate .., decode_encode_oversized⟩

/-- C4 (amended): the encoder never returns an error.  A string or list
whose length does not fit the 16-bit prefix has the prefix written
modulo 65536 while every byte is still written, so the encoding of an
oversized payload is silently corrupt — for the 65536-zero-byte id,
decoding the encoder's own output quietly yields a wrong (empty)
payload rather than an error. -/
theorem encoder_silently_truncates_length_fields :
    (∀ s : List Nat, writeString s = toLE 2 (s.length % 65536) ++ s) ∧
    (∀ l : List (List Nat),
      writeStringSlice l = toLE 2 (l.length % 65536) ++ (l.map writeString).flatten) ∧
    DecodeLicenseData (EncodeLicenseData
        ⟨List.replicate 65536 0, [], [], [], 0, 0, [], ⟨[], [], [], []⟩⟩) ≠
      some ⟨List.replicate 65536 0, [], [], [], 0, 0, [], ⟨[], [], [], []⟩⟩ := by
  refine ⟨?_, ?_, ?_⟩
  · intro s
    rw [writeString, toLE_two_mod]
  · intro l
    rw [writeStringSlice, toLE_two_mod]
  · rw [decode_encode_oversized]
    intro h
    have hID := congrArg LicenseData.ID (Option.some.inj h)
    have hL := congrArg List.length hID
    rw [List.length_replicate] at hL
    simp only [List.length_nil] at hL
    omega

/-- Witness for the truncation theorem at an oversized concrete string. -/
theorem encoder_silently_truncates_length_fields_witness :
    writeString (List.replicate 70000 1) =
      toLE 2 ((List.replicate 70000 1).length % 65536) ++ List.replicate 70000 1 :=
  encoder_silently_truncates_length_fields.1 (List.replicate 70000 1)
